import Mathlib

/-!
Verification development for the segmentation and progress-tracking core of a
document-outlining backend.  Documents hold a full text; segments are
half-open character spans with denormalized text, ordered by `segment_index`.
The development embeds, as pure Lean functions over an explicit state, the
Python functions of the backend:

* `remove_escape_chars_except_newline`, `upload_document`, `create_document`
  (document acquisition);
* `detect_text_boundaries_rule_based` and the boundary-detection dispatch of
  `segment_and_create_from_parent` (rule phase of the boundary detector, with
  the external generative classifier modelled as an opaque function parameter,
  as the design document itself treats it);
* `update_document_progress`, `incremental_update_document_progress`,
  `get_annotation_status_delta` (progress accumulator);
* `create_segment`, `update_segment`, `split_segment`, `merge_segments`,
  `delete_segment`, `bulk_segment_operations` (segment mutation engine).

Modelling conventions.  Text is `List Char` (Python `str` is a sequence of
code points; `len`, slicing and iteration agree with list length, `take`/`drop`
and list traversal).  Python integer arithmetic is `Int`/`Nat` (unbounded, as
in Python).  Database rows are entries of in-memory lists; the ORM session is
explicit state passing: every operation takes the persisted state and returns
the persisted state after the request, together with `Except`-style success or
failure.  An operation that raises before any commit returns the unchanged
input state (the session of the service rolls back on exception); a commit
that the operation performs before raising is reflected in the returned state.
UUID generation is modelled by a fresh-id counter.  Timestamps, the per-segment
comment log and the content cache are not modelled: no property proved here
mentions them, and the cache is read-through (its hit path returns the same
content that the store of record holds).  Floating-point percentages are
modelled as rationals.
-/

/-- Python truthiness of an optional string: `None` and the empty string are
falsy, any other string is truthy. -/
def truthyStr (o : Option (List Char)) : Bool :=
  match o with
  | none => false
  | some s => !s.isEmpty

/-- Python `a or b` for an optional string with a string default: yields the
first operand when it is truthy, otherwise the default. -/
def pyOrStr (o : Option (List Char)) (d : List Char) : List Char :=
  match o with
  | none => d
  | some s => if s.isEmpty then d else s

/-- Normalization of one Python slice bound for a sequence of length `n`:
negative indices count from the end and the result is clamped into `[0, n]`. -/
def pyBound (n : Nat) (i : Int) : Nat :=
  if i < 0 then (i + n).toNat else min i.toNat n

/-- Python slice `s[a:b]` with arbitrary integer bounds. -/
def pySlice (s : List Char) (a b : Int) : List Char :=
  (s.take (pyBound s.length b)).drop (pyBound s.length a)

/-- Python slice `s[:b]`. -/
def pySliceTo (s : List Char) (b : Int) : List Char :=
  s.take (pyBound s.length b)

/-- Python slice `s[a:]`. -/
def pySliceFrom (s : List Char) (a : Int) : List Char :=
  s.drop (pyBound s.length a)

/-- Whitespace as recognized by Python's `str.strip` and by `\s` in regular
expressions over `str`: the ASCII whitespace and separator controls together
with the Unicode space characters. -/
def isPySpace (c : Char) : Bool :=
  let n := c.toNat
  decide (n = 32 ∨ n = 9 ∨ n = 10 ∨ n = 11 ∨ n = 12 ∨ n = 13 ∨
    (28 ≤ n ∧ n ≤ 31) ∨ n = 133 ∨ n = 160 ∨ n = 0x1680 ∨
    (0x2000 ≤ n ∧ n ≤ 0x200a) ∨ n = 0x2028 ∨ n = 0x2029 ∨
    n = 0x202f ∨ n = 0x205f ∨ n = 0x3000)

/-- Python `str.strip()`: drop whitespace from both ends. -/
def pyStrip (s : List Char) : List Char :=
  ((s.dropWhile isPySpace).reverse.dropWhile isPySpace).reverse

/-- Character class `[\x00-\x09\x0B-\x1F\x7F]` of
`remove_escape_chars_except_newline`: every ASCII control character except the
newline `\n` (0x0A). -/
def isStrippedCtrl (c : Char) : Bool :=
  decide (c.toNat ≤ 0x09 ∨ (0x0B ≤ c.toNat ∧ c.toNat ≤ 0x1F) ∨ c.toNat = 0x7F)

/-- Embeds `remove_escape_chars_except_newline` of
`outliner/utils/outliner_utils.py`: `re.sub` with the single-character class
`[\x00-\x09\x0B-\x1F\x7F]` and an empty replacement deletes exactly the
characters of the class, keeping everything else in order. -/
def remove_escape_chars_except_newline (text : List Char) : List Char :=
  text.filter (fun c => !isStrippedCtrl c)

/-- Length of the maximal prefix of `l` whose characters satisfy `p` (the
deterministic extent of a greedy `X*` over a character class that is disjoint
from what must follow). -/
def runOf (p : Char → Bool) : List Char → Nat
  | [] => 0
  | c :: cs => if p c then runOf p cs + 1 else 0

/-- Index, within the first `k` characters of `l`, of the last newline, if
any.  This resolves the backtracking of a greedy `\s*` that must be followed
by a literal newline: the match takes the last newline inside the whitespace
run. -/
def lastNewlineIdxIn (l : List Char) (k : Nat) : Option Nat :=
  (((l.take k).enum.filter (fun p => p.2 = '\n')).getLast?).map (·.1)

/-- The exact Tibetan opening marker `'༄༅༅། །'` of the first split rule. -/
def tibMarkerFull : List Char := ['༄', '༅', '༅', '།', ' ', '།']

/-- The short Tibetan opening marker `'༄༅༅'` of the second split rule. -/
def tibMarkerShort : List Char := ['༄', '༅', '༅']

/-- Positions of every occurrence of `pat` in the text, as produced by the
`str.find` loop that restarts one character after each hit (so overlapping
occurrences are all reported). -/
def strFindAllGo (pat : List Char) : List Char → Nat → List Nat
  | [], _ => []
  | c :: rest, i =>
    if pat.isPrefixOf (c :: rest) then i :: strFindAllGo pat rest (i + 1)
    else strFindAllGo pat rest (i + 1)

/-- Occurrence positions of an exact-string marker, from position 0. -/
def strFindAll (pat text : List Char) : List Nat :=
  strFindAllGo pat text 0

/-- Membership in the regex class `[།\s]` (Tibetan shad or whitespace). -/
def isShadOrSpace (c : Char) : Bool :=
  c = '།' || isPySpace c

/-- Anchored match length of regex `༄༅༅[།\s]*` at the head of the suffix. -/
def matchTibRegex (l : List Char) : Option Nat :=
  if tibMarkerShort.isPrefixOf l then
    some (3 + runOf isShadOrSpace (l.drop 3))
  else none

/-- Membership in the CJK numeral class `[一二三四五六七八九十百千万]`. -/
def isCJKNumeral (c : Char) : Bool :=
  c = '一' || c = '二' || c = '三' || c = '四' || c = '五' || c = '六' ||
  c = '七' || c = '八' || c = '九' || c = '十' || c = '百' || c = '千' || c = '万'

/-- Membership in the CJK chapter-word class `[章节卷篇回]`. -/
def isCJKChapterWord (c : Char) : Bool :=
  c = '章' || c = '节' || c = '卷' || c = '篇' || c = '回'

/-- Anchored match length of regex `\n\s*第[一二三四五六七八九十百千万]+[章节卷篇回]\s*`
at the head of the suffix. -/
def matchCJKChapter (l : List Char) : Option Nat :=
  match l with
  | [] => none
  | c :: rest =>
    if c = '\n' then
      let s1 := runOf isPySpace rest
      let r1 := rest.drop s1
      match r1 with
      | [] => none
      | d :: r2 =>
        if d = '第' then
          let nums := runOf isCJKNumeral r2
          if nums = 0 then none
          else
            match r2.drop nums with
            | [] => none
            | w :: r3 =>
              if isCJKChapterWord w then
                some (1 + s1 + 1 + nums + 1 + runOf isPySpace r3)
              else none
        else none
    else none

/-- ASCII case-insensitive prefix test, for the `re.IGNORECASE` word match. -/
def ciPrefix : List Char → List Char → Bool
  | [], _ => true
  | _ :: _, [] => false
  | p :: ps, c :: cs => (p.toLower = c.toLower) && ciPrefix ps cs

/-- Anchored match length of regex `\n\s*WORD\s+\d+\s*[:-]?\s*` (with
`re.IGNORECASE`) at the head of the suffix, where `WORD` is the given keyword
(`Chapter` or `Section`). -/
def matchLatinHeader (word : List Char) (l : List Char) : Option Nat :=
  match l with
  | [] => none
  | c :: rest =>
    if c = '\n' then
      let s1 := runOf isPySpace rest
      let r1 := rest.drop s1
      if ciPrefix word r1 then
        let r2 := r1.drop word.length
        let s2 := runOf isPySpace r2
        if s2 = 0 then none
        else
          let r3 := r2.drop s2
          let ds := runOf (·.isDigit) r3
          if ds = 0 then none
          else
            let r4 := r3.drop ds
            let s3 := runOf isPySpace r4
            let r5 := r4.drop s3
            match r5 with
            | [] => some (1 + s1 + word.length + s2 + ds + s3)
            | p :: r6 =>
              if p = ':' || p = '-' then
                some (1 + s1 + word.length + s2 + ds + s3 + 1 + runOf isPySpace r6)
              else
                some (1 + s1 + word.length + s2 + ds + s3)
      else none
    else none

/-- Membership in the code-point-range class `[ༀ-༿]` (U+0F00 to U+0F3F). -/
def isTibetanHead (c : Char) : Bool :=
  decide (0x0F00 ≤ c.toNat ∧ c.toNat ≤ 0x0F3F)

/-- Anchored match length of regex `\n\s*[ༀ-༿]+\s*\n` at the head of the
suffix.  The trailing `\s*` backtracks so that the final literal `\n` lands on
the last newline of the whitespace run after the Tibetan characters. -/
def matchTibLine (l : List Char) : Option Nat :=
  match l with
  | [] => none
  | c :: rest =>
    if c = '\n' then
      let s1 := runOf isPySpace rest
      let r1 := rest.drop s1
      let tib := runOf isTibetanHead r1
      if tib = 0 then none
      else
        let r2 := r1.drop tib
        let s2 := runOf isPySpace r2
        match lastNewlineIdxIn r2 s2 with
        | some k => some (1 + s1 + tib + k + 1)
        | none => none
    else none

/-- Scan of `re.finditer` over a text: match positions are tried left to
right and the scan resumes at the end of each (non-empty) match.  `fuel`
bounds the recursion; it is instantiated with the text length plus one. -/
def finditerGo (matchAt : List Char → Option Nat) : Nat → List Char → Nat → List Nat
  | 0, _, _ => []
  | fuel + 1, l, i =>
    match matchAt l with
    | some len => i :: finditerGo matchAt fuel (l.drop (max len 1)) (i + max len 1)
    | none =>
      match l with
      | [] => []
      | _ :: rest => finditerGo matchAt fuel rest (i + 1)

/-- Start positions of the matches `re.finditer` reports for an anchored
matcher over the whole text. -/
def finditerStarts (matchAt : List Char → Option Nat) (text : List Char) : List Nat :=
  finditerGo matchAt (text.length + 1) text 0

/-- Insertion of a number into a strictly increasing list, keeping it
strictly increasing and dropping duplicates. -/
def insertSortedNodup (x : Nat) : List Nat → List Nat
  | [] => [x]
  | y :: ys =>
    if x < y then x :: y :: ys
    else if x = y then y :: ys
    else y :: insertSortedNodup x ys

/-- Python `sorted(set(l))`: the strictly increasing enumeration of the
elements of `l`. -/
def sortedDedup (l : List Nat) : List Nat :=
  l.foldr insertSortedNodup []

/-- Union of the match start positions of the seven split markers of
`detect_text_boundaries_rule_based` (`controller/ai.py`): two exact strings
via the restart-after-hit `str.find` loop, five regular expressions via
`re.finditer`. -/
def rulePositionsUnion (content : List Char) : List Nat :=
  strFindAll tibMarkerFull content ++
  strFindAll tibMarkerShort content ++
  finditerStarts matchTibRegex content ++
  finditerStarts matchCJKChapter content ++
  finditerStarts (matchLatinHeader ['c', 'h', 'a', 'p', 't', 'e', 'r']) content ++
  finditerStarts (matchLatinHeader ['s', 'e', 'c', 't', 'i', 'o', 'n']) content ++
  finditerStarts matchTibLine content

/-- Post-processing of the candidate set: sort and deduplicate, put 0 at the
front when it is not already the first element, sort and deduplicate again,
then drop positions beyond the text length. -/
def rulePostprocess (all_positions : List Nat) (content_length : Nat) : List Nat :=
  let sp := sortedDedup all_positions
  let sp := if sp.head? ≠ some 0 then 0 :: sp else sp
  let sp := sortedDedup sp
  sp.filter (fun pos => decide (pos ≤ content_length))

/-- Embeds `detect_text_boundaries_rule_based` of `controller/ai.py`: union
the marker match positions; if no pattern matched return `none` (Python
`None`), otherwise return the post-processed position list. -/
def detect_text_boundaries_rule_based (content : List Char) : Option (List Nat) :=
  if (rulePositionsUnion content).isEmpty then none
  else some (rulePostprocess (rulePositionsUnion content) content.length)

/-- Python truthiness of an optional short string field (title, author,
status, ...): `None` and `""` are falsy. -/
def truthyOS (o : Option String) : Bool :=
  match o with
  | none => false
  | some s => !(s = "")

/-- Python `a or b` for an optional short string with a default. -/
def pyOrOS (o : Option String) (d : String) : String :=
  match o with
  | none => d
  | some s => if s = "" then d else s

/-- Row of the `outliner_documents` table (`models/outliner.py`,
`OutlinerDocument`).  Timestamps are not modelled; the float
`progress_percentage` is modelled as a rational. -/
structure Document where
  id : Nat
  content : List Char
  filename : Option String
  user_id : Option String
  total_segments : Int
  annotated_segments : Int
  progress_percentage : ℚ
  status : Option String
  deriving Repr, DecidableEq

/-- Row of the `outliner_segments` table (`models/outliner.py`,
`OutlinerSegment`).  Timestamps and the comment log are not modelled: no
verified property mentions them. -/
structure Segment where
  id : Nat
  document_id : Nat
  text : List Char
  segment_index : Int
  span_start : Int
  span_end : Int
  title : Option String
  author : Option String
  title_bdrc_id : Option String
  author_bdrc_id : Option String
  parent_segment_id : Option Nat
  status : Option String
  is_annotated : Bool
  is_attached : Bool
  deriving Repr, DecidableEq

/-- Embeds `OutlinerDocument.update_progress`: recompute the percentage from
the two counters. -/
def Document.update_progress (d : Document) : Document :=
  if 0 < d.total_segments then
    { d with progress_percentage := ((d.annotated_segments : ℚ) / (d.total_segments : ℚ)) * 100 }
  else
    { d with progress_percentage := 0 }

/-- Embeds `OutlinerSegment.update_annotation_status`:
`is_annotated = bool(title or author)` under Python truthiness. -/
def Segment.update_annotation_status (t : Segment) : Segment :=
  { t with is_annotated := truthyOS t.title || truthyOS t.author }

/-- Persisted state: the two tables plus a fresh-id counter standing for
`uuid4` generation (every generated id is new). -/
structure DB where
  documents : List Document
  segments : List Segment
  nextId : Nat
  deriving Repr, DecidableEq

/-- Lookup of a document row by primary key (`query(...).filter(id).first()`). -/
def findDoc (s : DB) (did : Nat) : Option Document :=
  s.documents.find? (fun d => d.id == did)

/-- Lookup of a segment row by primary key. -/
def findSeg (s : DB) (sid : Nat) : Option Segment :=
  s.segments.find? (fun t => t.id == sid)

/-- Segment rows of one document. -/
def segmentsOf (s : DB) (did : Nat) : List Segment :=
  s.segments.filter (fun t => t.document_id == did)

/-- In-place ORM mutation of the first row with the given document id. -/
def replaceFirstDoc (f : Document → Document) (did : Nat) : List Document → List Document
  | [] => []
  | d :: ds => if d.id == did then f d :: ds else d :: replaceFirstDoc f did ds

/-- In-place ORM mutation of the first row with the given segment id. -/
def replaceFirstSeg (f : Segment → Segment) (sid : Nat) : List Segment → List Segment
  | [] => []
  | t :: ts => if t.id == sid then f t :: ts else t :: replaceFirstSeg f sid ts

/-- State after mutating the document row with the given id. -/
def withDocument (s : DB) (did : Nat) (f : Document → Document) : DB :=
  { s with documents := replaceFirstDoc f did s.documents }

/-- Embeds `update_document_progress` (`routers/outliner.py`): full recount
of total and annotated segments from the store, then percentage update.  (The
copy of this helper in `outliner/utils/outliner_utils.py` is truncated in the
snapshot; `routers/outliner.py` carries the complete body.) -/
def update_document_progress (s : DB) (did : Nat) : DB :=
  match findDoc s did with
  | none => s
  | some _ =>
    let total := (segmentsOf s did).length
    let annotated := ((segmentsOf s did).filter (fun t => t.is_annotated)).length
    withDocument s did (fun d =>
      Document.update_progress
        { d with total_segments := (total : Int), annotated_segments := (annotated : Int) })

/-- Embeds `incremental_update_document_progress` (`routers/outliner.py`):
when both deltas are zero only the percentage is refreshed; otherwise the
deltas are added, the counters are clamped to be non-negative with
`annotated_segments ≤ total_segments`, and the percentage is recomputed.
(The copy in `outliner/utils/outliner_utils.py` is truncated in the snapshot;
`routers/outliner.py` carries the complete body.)  This function is the
per-document body of the non-trivial branch: add the deltas, clamp, and
recompute the percentage. -/
def incrementalClampApply (total_delta annotated_delta : Int) (d : Document) : Document :=
  let d := { d with total_segments := d.total_segments + total_delta,
                    annotated_segments := d.annotated_segments + annotated_delta }
  let d := if d.total_segments < 0 then { d with total_segments := 0 } else d
  let d := if d.annotated_segments < 0 then { d with annotated_segments := 0 } else d
  let d := if d.total_segments < d.annotated_segments then
             { d with annotated_segments := d.total_segments } else d
  Document.update_progress d

/-- Embedding of the control flow of `incremental_update_document_progress`:
with two zero deltas only the percentage is refreshed; otherwise
`incrementalClampApply` runs on the document row. -/
def incremental_update_document_progress (s : DB) (did : Nat)
    (total_delta annotated_delta : Int) : DB :=
  if total_delta = 0 ∧ annotated_delta = 0 then
    match findDoc s did with
    | none => s
    | some _ => withDocument s did Document.update_progress
  else
    match findDoc s did with
    | none => s
    | some _ => withDocument s did (incrementalClampApply total_delta annotated_delta)

/-- Embeds `get_annotation_status_delta`: the canonical `+1 / -1 / 0` for an
annotation-status flip. -/
def get_annotation_status_delta (old_is_annotated new_is_annotated : Bool) : Int :=
  if old_is_annotated && !new_is_annotated then -1
  else if !old_is_annotated && new_is_annotated then 1
  else 0

/-- Failure modes surfaced as `HTTPException`s by the embedded operations,
plus `pyRuntimeFault` for an uncaught Python-level fault (such as calling
`len` on `None`) that the blanket exception handler converts into a generic
500 response. -/
inductive OpError where
  | documentNotFound
  | segmentNotFound
  | invalidSpan
  | invalidSpanOrder
  | contentRequired
  | emptyContent
  | noContentToSplit
  | invalidSplitPosition
  | invalidSplitSpan
  | needTwoSegments
  | segmentsMissing
  | crossDocumentMerge
  | invalidStatus
  | lengthMismatch
  | detectionFailed
  | incompleteStart
  | incompleteEnd
  | pyRuntimeFault
  deriving Repr, DecidableEq

/-- Outcome of one request: success or failure, together with the state that
the store of record holds after the request.  A failure's state is the input
state unless the operation committed part of its work before failing. -/
abbrev OpResult (α : Type) := Except OpError α × DB

/-- Embeds `create_document` (`outliner/controller/outliner.py`): insert a new
document row with zeroed progress counters and status `active`. -/
def create_document (s : DB) (content : List Char)
    (filename user_id : Option String) : Document × DB :=
  let d : Document :=
    { id := s.nextId, content := content, filename := filename, user_id := user_id,
      total_segments := 0, annotated_segments := 0, progress_percentage := 0,
      status := some "active" }
  (d, { s with documents := s.documents ++ [d], nextId := s.nextId + 1 })

/-- Embeds `upload_document` (`outliner/controller/outliner.py`): file content,
when truthy, is cleaned of ASCII control characters (except newline) and used;
otherwise a truthy direct `content` field is used verbatim with a default
filename; the request fails if neither source yields text or if the text is
whitespace-only. -/
def upload_document (s : DB) (file_content content : Option (List Char))
    (filename user_id : Option String) : OpResult Document :=
  let tc0 : Option (List Char) × Option String :=
    if truthyStr file_content then
      (some (remove_escape_chars_except_newline (file_content.getD [])), filename)
    else (none, none)
  let tc1 : Option (List Char) × Option String :=
    if !truthyStr tc0.1 && truthyStr content then
      (content, some (pyOrOS filename "text_document.txt"))
    else tc0
  if !truthyStr tc1.1 then (.error .contentRequired, s)
  else
    let text := tc1.1.getD []
    if (pyStrip text).length = 0 then (.error .emptyContent, s)
    else
      let (d, s1) := create_document s text tc1.2 user_id
      (.ok d, s1)

/-- Embeds `create_segment` (`outliner/controller/outliner.py`): when the text
argument is not truthy it is derived from the document content slice, after
checking only `span_start < 0` and `span_end > len(content)`; the new row gets
status `unchecked`, its annotation flag is recomputed, and the document
progress is fully recounted. -/
def create_segment (s : DB) (document_id : Nat)
    (segment_index span_start span_end : Int) (text : Option (List Char))
    (title author title_bdrc_id author_bdrc_id : Option String)
    (parent_segment_id : Option Nat) : OpResult Segment :=
  match findDoc s document_id with
  | none => (.error .documentNotFound, s)
  | some document =>
    let derived : Except OpError (List Char) :=
      if truthyStr text then .ok (text.getD [])
      else if span_start < 0 ∨ span_end > (document.content.length : Int) then
        .error .invalidSpan
      else .ok (pySlice document.content span_start span_end)
    match derived with
    | .error e => (.error e, s)
    | .ok segment_text =>
      let t : Segment :=
        Segment.update_annotation_status
          { id := s.nextId, document_id := document_id, text := segment_text,
            segment_index := segment_index, span_start := span_start,
            span_end := span_end, title := title, author := author,
            title_bdrc_id := title_bdrc_id, author_bdrc_id := author_bdrc_id,
            parent_segment_id := parent_segment_id, status := some "unchecked",
            is_annotated := false, is_attached := false }
      let s1 : DB := { s with segments := s.segments ++ [t], nextId := s.nextId + 1 }
      (.ok t, update_document_progress s1 document_id)

/-- Field arguments of a segment update request; `none` means the field was
not supplied. -/
structure SegmentUpdateArgs where
  text : Option (List Char) := none
  title : Option String := none
  author : Option String := none
  title_bdrc_id : Option String := none
  author_bdrc_id : Option String := none
  parent_segment_id : Option Nat := none
  is_attached : Option Bool := none
  status : Option String := none
  deriving Repr, DecidableEq

/-- Application of the supplied fields of an update to a segment row, as the
`if ... is not None` cascade of `update_segment` does. -/
def applyUpdateFields (a : SegmentUpdateArgs) (t : Segment) : Segment :=
  let t := match a.text with | none => t | some v => { t with text := v }
  let t := match a.title with | none => t | some v => { t with title := some v }
  let t := match a.author with | none => t | some v => { t with author := some v }
  let t := match a.title_bdrc_id with | none => t | some v => { t with title_bdrc_id := some v }
  let t := match a.author_bdrc_id with | none => t | some v => { t with author_bdrc_id := some v }
  let t := match a.parent_segment_id with | none => t | some v => { t with parent_segment_id := some v }
  let t := match a.is_attached with | none => t | some v => { t with is_attached := v }
  match a.status with | none => t | some v => { t with status := some v }

/-- Embeds `update_segment` (`outliner/controller/outliner.py`): apply the
supplied fields, validate a supplied status against
`checked / unchecked / approved`, recompute the annotation flag, and apply an
incremental progress update (with zero total delta) only when the annotation
status flipped.  The comment-log arguments are not modelled. -/
def update_segment (s : DB) (segment_id : Nat) (a : SegmentUpdateArgs) :
    OpResult Segment :=
  match findSeg s segment_id with
  | none => (.error .segmentNotFound, s)
  | some t =>
    let old_is_annotated := t.is_annotated
    let document_id := t.document_id
    let statusBad :=
      match a.status with
      | none => false
      | some v => !(v = "checked" || v = "unchecked" || v = "approved")
    if statusBad then (.error .invalidStatus, s)
    else
      let t1 := Segment.update_annotation_status (applyUpdateFields a t)
      let annotated_delta := get_annotation_status_delta old_is_annotated t1.is_annotated
      let s1 : DB := { s with segments := replaceFirstSeg (fun _ => t1) segment_id s.segments }
      let s2 := if annotated_delta ≠ 0 then
                  incremental_update_document_progress s1 document_id 0 annotated_delta
                else s1
      (.ok t1, s2)

/-- Core of `split_segment` once the target segment is at hand: validate the
split position against the segment's own text, shrink the first half in
place, create the second half (inheriting parent reference and status, with
annotation fields cleared), shift the indices of all later segments of the
document up by one, and recount the document progress. -/
def split_segment_core (s : DB) (t : Segment) (split_position : Int) :
    OpResult (Segment × Segment) :=
  if split_position ≤ 0 ∨ (t.text.length : Int) ≤ split_position then
    (.error .invalidSplitPosition, s)
  else
    let new_first_span_end := t.span_start + split_position
    if new_first_span_end < t.span_start ∨ t.span_end < new_first_span_end then
      (.error .invalidSplitSpan, s)
    else
      let text_before := pySliceTo t.text split_position
      let text_after := pySliceFrom t.text split_position
      let t1 := Segment.update_annotation_status
        { t with text := text_before, span_end := new_first_span_end }
      let new_segment : Segment :=
        { id := s.nextId, document_id := t.document_id, text := text_after,
          segment_index := t.segment_index + 1, span_start := new_first_span_end,
          span_end := t.span_end, title := none, author := none,
          title_bdrc_id := none, author_bdrc_id := none,
          parent_segment_id := t.parent_segment_id,
          status := some (pyOrOS t.status "unchecked"),
          is_annotated := false, is_attached := false }
      let segs1 := replaceFirstSeg (fun _ => t1) t.id s.segments
      let segs2 := segs1.map (fun u =>
        if u.document_id == t.document_id && t.segment_index < u.segment_index then
          { u with segment_index := u.segment_index + 1 }
        else u)
      let s1 : DB := { s with segments := segs2 ++ [new_segment], nextId := s.nextId + 1 }
      (.ok (t1, new_segment), update_document_progress s1 t.document_id)

/-- Embeds `split_segment` (`outliner/controller/outliner.py`), including the
lazy-materialization path: when the segment id does not resolve but a document
id is supplied and that document has no segments yet, a single full-document
segment is synthesized and committed first, and the split proceeds on it.
Because that synthesis is committed on its own, a failure of the subsequent
validation leaves the materialized segment in the store. -/
def split_segment (s : DB) (segment_id : Nat) (split_position : Int)
    (document_id : Option Nat) : OpResult (Segment × Segment) :=
  match findSeg s segment_id with
  | some t => split_segment_core s t split_position
  | none =>
    match document_id with
    | none => (.error .segmentNotFound, s)
    | some did =>
      match findDoc s did with
      | none => (.error .documentNotFound, s)
      | some document =>
        if (segmentsOf s did).length ≠ 0 then (.error .segmentNotFound, s)
        else if document.content.isEmpty || (pyStrip document.content).isEmpty then
          (.error .noContentToSplit, s)
        else
          let initial_segment : Segment :=
            Segment.update_annotation_status
              { id := s.nextId, document_id := did, text := document.content,
                segment_index := 0, span_start := 0,
                span_end := (document.content.length : Int), title := none,
                author := none, title_bdrc_id := none, author_bdrc_id := none,
                parent_segment_id := none, status := some "unchecked",
                is_annotated := false, is_attached := false }
          let s1 : DB :=
            { s with segments := s.segments ++ [initial_segment], nextId := s.nextId + 1 }
          split_segment_core s1 initial_segment split_position

/-- First truthy value of a sequence of optional strings, as the
`next((x for x in xs if x), None)` idiom computes it: empty strings are
skipped along with `None`. -/
def firstTruthy (l : List (Option String)) : Option String :=
  match l.find? truthyOS with
  | some o => o
  | none => none

/-- Insertion into a list sorted by segment index (used to realize the
`ORDER BY segment_index` of the merge fetch; ties cannot arise between
distinct well-indexed rows). -/
def insertByIndex (x : Segment) : List Segment → List Segment
  | [] => [x]
  | y :: ys =>
    if x.segment_index ≤ y.segment_index then x :: y :: ys
    else y :: insertByIndex x ys

/-- Sort of a segment list by segment index. -/
def sortByIndex (l : List Segment) : List Segment :=
  l.foldr insertByIndex []

/-- Embeds `merge_segments` (`outliner/controller/outliner.py`): fetch the
given ids ordered by segment index, require at least two ids, all resolvable
and all of one document; concatenate the texts into the first segment, set its
span end to the last segment's span end, fill title, author and the two
reference ids with the first truthy value across the fetched rows, delete the
other rows, shift every later index down by one less than the merge count, and
recount the document progress. -/
def merge_segments (s : DB) (segment_ids : List Nat) : OpResult Segment :=
  if segment_ids.length < 2 then (.error .needTwoSegments, s)
  else
    let segments := sortByIndex (s.segments.filter (fun t => segment_ids.contains t.id))
    if segments.length ≠ segment_ids.length then (.error .segmentsMissing, s)
    else
      match segments with
      | [] => (.error .segmentsMissing, s)
      | first :: rest =>
        let document_id := first.document_id
        if !(segments.all (fun t => t.document_id == document_id)) then
          (.error .crossDocumentMerge, s)
        else
          let merged_text := (segments.map (fun t => t.text)).flatten
          let first1 := Segment.update_annotation_status
            { first with
              text := merged_text
              span_end := (rest.getLastD first).span_end
              title := firstTruthy (segments.map (fun t => t.title))
              author := firstTruthy (segments.map (fun t => t.author))
              title_bdrc_id := firstTruthy (segments.map (fun t => t.title_bdrc_id))
              author_bdrc_id := firstTruthy (segments.map (fun t => t.author_bdrc_id))
              parent_segment_id := first.parent_segment_id }
          let delete_ids := rest.map (fun t => t.id)
          let segs1 := (replaceFirstSeg (fun _ => first1) first.id s.segments).filter
            (fun u => !(delete_ids.contains u.id))
          let shift_amount : Int := (segments.length : Int) - 1
          let segs2 := segs1.map (fun u =>
            if u.document_id == document_id && first.segment_index < u.segment_index then
              { u with segment_index := u.segment_index - shift_amount }
            else u)
          let s1 : DB := { s with segments := segs2 }
          (.ok first1, update_document_progress s1 document_id)

/-- Embeds `delete_segment` (`outliner/controller/outliner.py`): remove the
row, shift every later index of the document down by one, recount progress. -/
def delete_segment (s : DB) (segment_id : Nat) : OpResult Unit :=
  match findSeg s segment_id with
  | none => (.error .segmentNotFound, s)
  | some t =>
    let segs1 := s.segments.filter (fun u => !(u.id == t.id))
    let segs2 := segs1.map (fun u =>
      if u.document_id == t.document_id && t.segment_index < u.segment_index then
        { u with segment_index := u.segment_index - 1 }
      else u)
    let s1 : DB := { s with segments := segs2 }
    (.ok (), update_document_progress s1 t.document_id)

/-- One entry of the create list of a bulk segment request. -/
structure BulkCreateItem where
  segment_index : Option Int := none
  span_start : Int
  span_end : Int
  text : Option (List Char) := none
  title : Option String := none
  author : Option String := none
  title_bdrc_id : Option String := none
  author_bdrc_id : Option String := none
  parent_segment_id : Option Nat := none
  deriving Repr, DecidableEq

/-- One entry of the update list of a bulk segment request. -/
structure BulkUpdateItem where
  id : Nat
  text : Option (List Char) := none
  title : Option String := none
  author : Option String := none
  title_bdrc_id : Option String := none
  author_bdrc_id : Option String := none
  parent_segment_id : Option Nat := none
  is_attached : Option Bool := none
  status : Option String := none
  span_start : Option Int := none
  span_end : Option Int := none
  segment_index : Option Int := none
  deriving Repr, DecidableEq

/-- Python `dict` built from keyed entries: the key keeps its first-insertion
position and its value is the last one written. -/
def dictPut (k : Nat) (v : BulkUpdateItem) : List (Nat × BulkUpdateItem) → List (Nat × BulkUpdateItem)
  | [] => [(k, v)]
  | (k0, v0) :: rest => if k0 = k then (k0, v) :: rest else (k0, v0) :: dictPut k v rest

/-- The `segment_updates` dict of the bulk update phase, keyed by segment id. -/
def buildUpdateDict (items : List BulkUpdateItem) : List (Nat × BulkUpdateItem) :=
  items.foldl (fun acc it => dictPut it.id it acc) []

/-- Lookup in the update dict. -/
def dictGet (m : List (Nat × BulkUpdateItem)) (k : Nat) : Option BulkUpdateItem :=
  (m.find? (fun p => p.1 == k)).map (fun p => p.2)

/-- Application of one bulk update entry to a segment row: the
`if 'f' in update_data and update_data['f'] is not None` cascade, which also
lets the bulk path rewrite `span_start`, `span_end` and `segment_index`, then
a recomputation of the annotation flag. -/
def applyBulkUpdate (u : BulkUpdateItem) (t : Segment) : Segment :=
  let t := match u.text with | none => t | some v => { t with text := v }
  let t := match u.title with | none => t | some v => { t with title := some v }
  let t := match u.author with | none => t | some v => { t with author := some v }
  let t := match u.title_bdrc_id with | none => t | some v => { t with title_bdrc_id := some v }
  let t := match u.author_bdrc_id with | none => t | some v => { t with author_bdrc_id := some v }
  let t := match u.parent_segment_id with | none => t | some v => { t with parent_segment_id := some v }
  let t := match u.is_attached with | none => t | some v => { t with is_attached := v }
  let t := match u.status with | none => t | some v => { t with status := some v }
  let t := match u.span_start with | none => t | some v => { t with span_start := v }
  let t := match u.span_end with | none => t | some v => { t with span_end := v }
  let t := match u.segment_index with | none => t | some v => { t with segment_index := v }
  Segment.update_annotation_status t

/-- Python `scalar() or -1` over an optional maximum: both a missing maximum
and a maximum of exactly 0 fall through to -1 under truthiness. -/
def pyOrNegOne (o : Option Int) : Int :=
  match o with
  | none => -1
  | some v => if v = 0 then -1 else v

/-- Delete phase of `bulk_segment_operations`: validate that every id
resolves within the document, remove the rows, and shift the indices of
segments above the greatest deleted index down by the delete count. -/
def bulkDeletePhase (did : Nat) (deleteIds : List Nat) (s : DB) : Except OpError DB :=
  if deleteIds.isEmpty then .ok s
  else
    let segments_to_delete := s.segments.filter
      (fun t => deleteIds.contains t.id && t.document_id == did)
    if segments_to_delete.length ≠ deleteIds.length then .error .segmentsMissing
    else
      let max_deleted_index := ((segments_to_delete.map (fun t => t.segment_index)).max?).getD (-1)
      let segs1 := s.segments.filter
        (fun t => !(deleteIds.contains t.id && t.document_id == did))
      let segs2 :=
        if 0 ≤ max_deleted_index then
          segs1.map (fun u =>
            if u.document_id == did && max_deleted_index < u.segment_index then
              { u with segment_index := u.segment_index - (segments_to_delete.length : Int) }
            else u)
        else segs1
      .ok { s with segments := segs2 }

/-- Update phase of `bulk_segment_operations`: build the id-keyed dict,
validate that every id resolves within the document, reject a status outside
`checked / unchecked`, and apply the whitelisted fields per row. -/
def bulkUpdatePhase (did : Nat) (updates : List BulkUpdateItem) (s : DB) : Except OpError DB :=
  if updates.isEmpty then .ok s
  else
    let dict := buildUpdateDict updates
    let ids := dict.map (fun p => p.1)
    let segments_to_update := s.segments.filter
      (fun t => ids.contains t.id && t.document_id == did)
    if segments_to_update.length ≠ ids.length then .error .segmentsMissing
    else if dict.any (fun p =>
        match p.2.status with
        | none => false
        | some v => !(v = "checked" || v = "unchecked")) then
      .error .invalidStatus
    else
      let segs1 := s.segments.map (fun t =>
        if t.document_id == did then
          match dictGet dict t.id with
          | some u => applyBulkUpdate u t
          | none => t
        else t)
      .ok { s with segments := segs1 }

/-- Create phase of `bulk_segment_operations`: number the new rows after the
current maximum index when no index is supplied, derive missing text from the
document content (validating only the lower bound of the start and the upper
bound of the end), and append the rows. -/
def bulkCreatePhase (did : Nat) (content : List Char) (creates : List BulkCreateItem)
    (s : DB) : Except OpError DB :=
  if creates.isEmpty then .ok s
  else
    let max_index := pyOrNegOne ((segmentsOf s did).map (fun t => t.segment_index)).max?
    let rec go (s : DB) (idx : Nat) : List BulkCreateItem → Except OpError DB
      | [] => .ok s
      | item :: rest =>
        let segment_index := item.segment_index.getD (max_index + idx + 1)
        let derived : Except OpError (List Char) :=
          if truthyStr item.text then .ok (item.text.getD [])
          else if item.span_start < 0 ∨ item.span_end > (content.length : Int) then
            .error .invalidSpan
          else .ok (pySlice content item.span_start item.span_end)
        match derived with
        | .error e => .error e
        | .ok segment_text =>
          let t : Segment :=
            Segment.update_annotation_status
              { id := s.nextId, document_id := did, text := segment_text,
                segment_index := segment_index, span_start := item.span_start,
                span_end := item.span_end, title := item.title, author := item.author,
                title_bdrc_id := item.title_bdrc_id, author_bdrc_id := item.author_bdrc_id,
                parent_segment_id := item.parent_segment_id, status := some "unchecked",
                is_annotated := false, is_attached := false }
          go { s with segments := s.segments ++ [t], nextId := s.nextId + 1 } (idx + 1) rest
    go s 0 creates

/-- Embeds `bulk_segment_operations` (`outliner/controller/outliner.py`): the
three phases run in the fixed order delete, update, create against the same
transaction, progress is recounted once at the end, and everything is
committed together — any failure rolls the whole batch back, so the function
returns the untouched input state on error. -/
def bulk_segment_operations (s : DB) (document_id : Nat)
    (creates : List BulkCreateItem) (updates : List BulkUpdateItem)
    (deletes : List Nat) : OpResult Unit :=
  match findDoc s document_id with
  | none => (.error .documentNotFound, s)
  | some document =>
    let pipeline : Except OpError DB :=
      match bulkDeletePhase document_id deletes s with
      | .error e => .error e
      | .ok s1 =>
        match bulkUpdatePhase document_id updates s1 with
        | .error e => .error e
        | .ok s2 =>
          match bulkCreatePhase document_id document.content creates s2 with
          | .error e => .error e
          | .ok s3 => .ok (update_document_progress s3 document_id)
    match pipeline with
    | .ok s4 => (.ok (), s4)
    | .error e => (.error e, s)

/-- End offsets derived from a list of start offsets: each start's end is the
next start, and the last end is the given content length. -/
def endPositionsOf (ps : List Nat) (content_length : Nat) : List Nat :=
  match ps with
  | [] => []
  | _ :: rest => rest ++ [content_length]

/-- Embeds the boundary-detection dispatch and segment materialization of
`segment_and_create_from_parent` (`controller/ai.py`).  The external
generative classifier is an opaque function parameter, as the design treats
it.  The dispatch mirrors the source exactly: a truthy rule result is taken;
a rule result of exactly one position routes to the classifier; a rule result
of `None` reaches `len(None)`, an uncaught fault that the blanket handler
turns into a rollback and a generic failure, so the classifier is never
consulted on that path.  On success the parent row is deleted, later indices
shift up by one less than the child count, the children are inserted
unannotated at absolute offsets, and the progress counters receive a single
incremental delta. -/
def segment_and_create_from_parent (s : DB) (segment_id : Nat)
    (content : Option (List Char))
    (classifier : List Char → Except OpError (List Nat)) :
    OpResult (Nat × List Nat) :=
  match findSeg s segment_id with
  | none => (.error .segmentNotFound, s)
  | some parent_segment =>
    let document_id := parent_segment.document_id
    match findDoc s document_id with
    | none => (.error .documentNotFound, s)
    | some document =>
      let segment_start := parent_segment.span_start
      let segment_end := parent_segment.span_end
      if segment_start < 0 ∨ segment_end > (document.content.length : Int) then
        (.error .invalidSpan, s)
      else if segment_end ≤ segment_start then (.error .invalidSpanOrder, s)
      else
        let segment_content := pySlice document.content segment_start segment_end
        let content_to_segment := content.getD segment_content
        let dispatched : Except OpError (List Nat) :=
          match detect_text_boundaries_rule_based content_to_segment with
          | none => .error .pyRuntimeFault
          | some rule_based_positions =>
            if rule_based_positions.length = 1 then classifier content_to_segment
            else .ok rule_based_positions
        match dispatched with
        | .error e => (.error e, s)
        | .ok relative_positions =>
          if relative_positions.isEmpty then (.error .detectionFailed, s)
          else if relative_positions.head? ≠ some 0 then (.error .incompleteStart, s)
          else
            let content_length := content_to_segment.length
            let end_positions := endPositionsOf relative_positions content_length
            let last_segment_end := end_positions.getLastD 0
            if last_segment_end ≠ content_length then (.error .incompleteEnd, s)
            else
              let absolute_positions := relative_positions.map
                (fun p => segment_start + (p : Int))
              let num_new_segments := absolute_positions.length
              let parent_index := parent_segment.segment_index
              let parent_was_annotated := parent_segment.is_annotated
              let abs_ends := absolute_positions.drop 1 ++ [segment_end]
              let new_rows := ((absolute_positions.zip abs_ends).enum).map
                (fun pr =>
                  ({ id := s.nextId + pr.1, document_id := document_id,
                     text := pySlice document.content pr.2.1 pr.2.2,
                     segment_index := parent_index + (pr.1 : Int),
                     span_start := pr.2.1, span_end := pr.2.2, title := none,
                     author := none, title_bdrc_id := none, author_bdrc_id := none,
                     parent_segment_id := none, status := some "unchecked",
                     is_annotated := false, is_attached := false } : Segment))
              let segs1 := s.segments.filter (fun u => !(u.id == parent_segment.id))
              let segs2 := segs1.map (fun u =>
                if u.document_id == document_id && parent_index < u.segment_index then
                  { u with segment_index := u.segment_index + ((num_new_segments : Int) - 1) }
                else u)
              let s1 : DB :=
                { s with segments := segs2 ++ new_rows,
                         nextId := s.nextId + num_new_segments }
              let annotated_delta : Int := if parent_was_annotated then -1 else 0
              let s2 := incremental_update_document_progress s1 document_id
                ((num_new_segments : Int) - 1) annotated_delta
              (.ok (num_new_segments, new_rows.map (fun t => t.id)), s2)

/-- Invariant 3 of the data model, as a decidable check over the state: every
document's tracked counters equal a fresh recount of its segments, and the
percentage is the derived ratio. -/
def progressConsistent (s : DB) : Bool :=
  s.documents.all (fun d =>
    decide (d.total_segments = ((segmentsOf s d.id).length : Int)) &&
    decide (d.annotated_segments =
      ((((segmentsOf s d.id).filter (fun t => t.is_annotated)).length : Int))) &&
    decide (d.progress_percentage =
      (if 0 < d.total_segments then
        ((d.annotated_segments : ℚ) / (d.total_segments : ℚ)) * 100
      else 0)))

/-- Success test for an `Except` outcome. -/
def exceptIsOk {ε α : Type} : Except ε α → Bool
  | .ok _ => true
  | .error _ => false

theorem mem_insertSortedNodup {a x : Nat} {l : List Nat} :
    a ∈ insertSortedNodup x l ↔ a = x ∨ a ∈ l := by
  induction l with
  | nil => simp [insertSortedNodup]
  | cons y ys ih =>
    by_cases hxy : x < y
    · simp [insertSortedNodup, hxy]
    · by_cases heq : x = y
      · subst heq
        simp only [insertSortedNodup, lt_irrefl, if_false, if_pos rfl]
        constructor
        · intro h; exact Or.inr h
        · rintro (h | h)
          · simp [h]
          · exact h
      · simp only [insertSortedNodup, if_neg hxy, if_neg heq, List.mem_cons, ih]
        tauto

theorem pairwise_insertSortedNodup {x : Nat} {l : List Nat}
    (h : l.Pairwise (· < ·)) : (insertSortedNodup x l).Pairwise (· < ·) := by
  induction l with
  | nil => simp [insertSortedNodup]
  | cons y ys ih =>
    rw [List.pairwise_cons] at h
    obtain ⟨hy, hys⟩ := h
    by_cases hxy : x < y
    · rw [insertSortedNodup, if_pos hxy, List.pairwise_cons]
      refine ⟨?_, ?_⟩
      · intro b hb
        rcases List.mem_cons.mp hb with hb | hb
        · omega
        · have := hy b hb; omega
      · rw [List.pairwise_cons]; exact ⟨hy, hys⟩
    · by_cases heq : x = y
      · rw [insertSortedNodup, if_neg hxy, if_pos heq, List.pairwise_cons]
        exact ⟨hy, hys⟩
      · rw [insertSortedNodup, if_neg hxy, if_neg heq, List.pairwise_cons]
        refine ⟨?_, ih hys⟩
        intro b hb
        rcases mem_insertSortedNodup.mp hb with hb | hb
        · omega
        · exact hy b hb

theorem mem_sortedDedup {a : Nat} {l : List Nat} :
    a ∈ sortedDedup l ↔ a ∈ l := by
  induction l with
  | nil => simp [sortedDedup]
  | cons y ys ih =>
    simp only [sortedDedup, List.foldr_cons] at *
    rw [mem_insertSortedNodup, ih, List.mem_cons]

theorem pairwise_sortedDedup (l : List Nat) : (sortedDedup l).Pairwise (· < ·) := by
  induction l with
  | nil => simp [sortedDedup]
  | cons y ys ih =>
    simp only [sortedDedup, List.foldr_cons] at *
    exact pairwise_insertSortedNodup ih

theorem rulePostprocess_eq (A : List Nat) (n : Nat) :
    rulePostprocess A n =
      (sortedDedup (if (sortedDedup A).head? ≠ some 0 then 0 :: sortedDedup A
        else sortedDedup A)).filter (fun pos => decide (pos ≤ n)) := rfl

theorem rulePostprocess_sound (A : List Nat) (n : Nat) :
    0 ∈ rulePostprocess A n ∧ (rulePostprocess A n).Pairwise (· < ·) ∧
      ∀ x ∈ rulePostprocess A n, x ≤ n := by
  rw [rulePostprocess_eq]
  set sp1 := sortedDedup A with hsp1
  set sp2 := if sp1.head? ≠ some 0 then 0 :: sp1 else sp1 with hsp2
  have hzero : 0 ∈ sp2 := by
    rw [hsp2]
    by_cases hh : sp1.head? = some 0
    · simp only [hh, ne_eq, not_true_eq_false, if_false]
      cases hl : sp1 with
      | nil => rw [hl] at hh; simp at hh
      | cons a as =>
        rw [hl] at hh
        simp only [List.head?_cons, Option.some.injEq] at hh
        simp [hh]
    · simp [hh]
  refine ⟨?_, ?_, ?_⟩
  · rw [List.mem_filter]
    exact ⟨mem_sortedDedup.mpr hzero, by simp⟩
  · exact (pairwise_sortedDedup sp2).sublist (List.filter_sublist _)
  · intro x hx
    rw [List.mem_filter] at hx
    exact of_decide_eq_true hx.2

/-- C9: the rule phase of boundary detection is a pure function of the input
text — identical inputs give identical outputs — and every offset list it
returns contains 0, is strictly increasing (sorted with no duplicates), and
contains no offset exceeding the input length. -/
theorem detect_rule_based_deterministic_sound :
    (∀ t1 t2 : List Char, t1 = t2 →
      detect_text_boundaries_rule_based t1 = detect_text_boundaries_rule_based t2) ∧
    (∀ (t : List Char) (l : List Nat), detect_text_boundaries_rule_based t = some l →
      0 ∈ l ∧ l.Pairwise (· < ·) ∧ ∀ x ∈ l, x ≤ t.length) := by
  constructor
  · intro t1 t2 h; rw [h]
  · intro t l h
    rw [detect_text_boundaries_rule_based] at h
    by_cases hempty : (rulePositionsUnion t).isEmpty = true
    · rw [if_pos hempty] at h; cases h
    · rw [if_neg hempty] at h
      obtain rfl : rulePostprocess (rulePositionsUnion t) t.length = l :=
        Option.some.inj h
      exact rulePostprocess_sound _ _

/-- Closed instance for the soundness half of the rule-phase theorem: on the
short Tibetan marker the detector returns `[0]`, which contains 0, is
strictly sorted and is bounded by the text length. -/
theorem detect_rule_based_deterministic_sound_witness :
    0 ∈ [0] ∧ ([0] : List Nat).Pairwise (· < ·) ∧
      ∀ x ∈ [0], x ≤ tibMarkerShort.length :=
  detect_rule_based_deterministic_sound.2 tibMarkerShort [0] rfl

theorem find?_replaceFirstDoc (f : Document → Document) (did : Nat)
    (l : List Document) (hf : ∀ d, (f d).id = d.id) :
    (replaceFirstDoc f did l).find? (fun d => d.id == did) =
      (l.find? (fun d => d.id == did)).map f := by
  induction l with
  | nil => simp [replaceFirstDoc]
  | cons d ds ih =>
    rw [replaceFirstDoc]
    by_cases h : (d.id == did) = true
    · have h2 : ((f d).id == did) = true := by rw [hf]; exact h
      rw [if_pos h]
      simp only [List.find?, h2, h]
      rfl
    · rw [if_neg h]
      rw [Bool.not_eq_true] at h
      simp only [List.find?, h]
      exact ih

theorem findDoc_withDocument (s : DB) (did : Nat) (f : Document → Document)
    (hf : ∀ d, (f d).id = d.id) :
    findDoc (withDocument s did f) did = (findDoc s did).map f :=
  find?_replaceFirstDoc f did s.documents hf

@[simp] theorem update_progress_id (d : Document) :
    (Document.update_progress d).id = d.id := by
  rw [Document.update_progress]
  split <;> rfl

@[simp] theorem update_progress_total (d : Document) :
    (Document.update_progress d).total_segments = d.total_segments := by
  rw [Document.update_progress]
  split <;> rfl

@[simp] theorem update_progress_annotated (d : Document) :
    (Document.update_progress d).annotated_segments = d.annotated_segments := by
  rw [Document.update_progress]
  split <;> rfl

theorem update_progress_formula (d : Document) :
    (Document.update_progress d).progress_percentage =
      (if 0 < (Document.update_progress d).total_segments then
        (((Document.update_progress d).annotated_segments : ℚ) /
          ((Document.update_progress d).total_segments : ℚ)) * 100
      else 0) := by
  rw [Document.update_progress]
  split <;> simp_all

theorem incrementalClampApply_id (total_delta annotated_delta : Int) (d : Document) :
    (incrementalClampApply total_delta annotated_delta d).id = d.id := by
  simp only [incrementalClampApply]
  split_ifs <;> simp

theorem incrementalClampApply_counters (total_delta annotated_delta : Int) (d : Document) :
    (incrementalClampApply total_delta annotated_delta d).total_segments =
      max (d.total_segments + total_delta) 0 ∧
    (incrementalClampApply total_delta annotated_delta d).annotated_segments =
      min (max (d.annotated_segments + annotated_delta) 0)
        (max (d.total_segments + total_delta) 0) := by
  simp only [incrementalClampApply]
  split_ifs <;> simp_all <;> omega

theorem incrementalClampApply_formula (total_delta annotated_delta : Int) (d : Document) :
    (incrementalClampApply total_delta annotated_delta d).progress_percentage =
      (if 0 < (incrementalClampApply total_delta annotated_delta d).total_segments then
        (((incrementalClampApply total_delta annotated_delta d).annotated_segments : ℚ) /
          ((incrementalClampApply total_delta annotated_delta d).total_segments : ℚ)) * 100
      else 0) := by
  simp only [incrementalClampApply]
  exact update_progress_formula _

/-- C1: for a stored document with sane counters (non-negative, annotated not
above total), the incremental progress update adds the two deltas to the two
counters in place, clamps both to be non-negative with annotated bounded by
total, and recomputes the percentage from the new counters (zero when the new
total is zero). -/
theorem incremental_update_progress_delta_spec (s : DB) (did : Nat)
    (total_delta annotated_delta : Int) (d : Document)
    (hd : findDoc s did = some d) (h0 : 0 ≤ d.annotated_segments)
    (h1 : d.annotated_segments ≤ d.total_segments) :
    ∃ d2, findDoc (incremental_update_document_progress s did total_delta annotated_delta) did
        = some d2 ∧
      d2.total_segments = max (d.total_segments + total_delta) 0 ∧
      d2.annotated_segments = min (max (d.annotated_segments + annotated_delta) 0)
        (max (d.total_segments + total_delta) 0) ∧
      d2.progress_percentage = (if 0 < d2.total_segments then
        ((d2.annotated_segments : ℚ) / (d2.total_segments : ℚ)) * 100 else 0) := by
  rw [incremental_update_document_progress]
  by_cases hz : total_delta = 0 ∧ annotated_delta = 0
  · rw [if_pos hz]
    simp only [hd]
    obtain ⟨hz1, hz2⟩ := hz
    subst hz1; subst hz2
    refine ⟨Document.update_progress d, ?_, ?_, ?_, ?_⟩
    · rw [findDoc_withDocument _ _ _ update_progress_id, hd]; rfl
    · simp only [update_progress_total]; omega
    · simp only [update_progress_total, update_progress_annotated]; omega
    · exact update_progress_formula d
  · rw [if_neg hz]
    simp only [hd]
    refine ⟨incrementalClampApply total_delta annotated_delta d, ?_, ?_, ?_, ?_⟩
    · rw [findDoc_withDocument _ _ _ (incrementalClampApply_id total_delta annotated_delta),
        hd]
      rfl
    · exact (incrementalClampApply_counters total_delta annotated_delta d).1
    · exact (incrementalClampApply_counters total_delta annotated_delta d).2
    · exact incrementalClampApply_formula total_delta annotated_delta d

/-- Fixture: a fresh two-character document with zeroed counters. -/
def exDocAB : Document :=
  ⟨1, ['A', 'B'], none, none, 0, 0, 0, some "active"⟩

/-- Fixture: a state holding only `exDocAB` and no segments. -/
def exStateAB : DB := ⟨[exDocAB], [], 10⟩

/-- Closed instance of the incremental-progress theorem: applying deltas
`(+1, +1)` to the zeroed document yields counters `(1, 1)` and percentage
`100`. -/
theorem incremental_update_progress_delta_spec_witness :
    ∃ d2, findDoc (incremental_update_document_progress exStateAB 1 1 1) 1 = some d2 ∧
      d2.total_segments = max (0 + 1) 0 ∧
      d2.annotated_segments = min (max (0 + 1) 0) (max (0 + 1) 0) ∧
      d2.progress_percentage = (if 0 < d2.total_segments then
        ((d2.annotated_segments : ℚ) / (d2.total_segments : ℚ)) * 100 else 0) :=
  incremental_update_progress_delta_spec exStateAB 1 1 1 exDocAB rfl
    (by decide) (by decide)

/-- C2: evaluation of the progress-consistency invariant across the
lazy-materialization path of `split_segment`.  Starting from a consistent
state (one two-character document, no segments, counters zero), a split
request against a missing segment id with the document id supplied and an
out-of-range split position first commits the synthesized full-document
segment and only then fails the position validation: the returned state keeps
the materialized segment while the counters still read zero, so a fresh
recount no longer matches the tracked counters. -/
theorem split_lazy_materialization_breaks_progress :
    (split_segment exStateAB 99 5 (some 1)).1 = Except.error OpError.invalidSplitPosition ∧
    progressConsistent exStateAB = true ∧
    (split_segment exStateAB 99 5 (some 1)).2.segments.length = 1 ∧
    progressConsistent (split_segment exStateAB 99 5 (some 1)).2 = false :=
  ⟨rfl, rfl, rfl, rfl⟩

/-- Fixture: a document whose content triggers no rule-phase marker, with its
single full-span segment. -/
def exDocHello : Document :=
  ⟨1, ("hello world").toList, none, none, 1, 0, 0, some "active"⟩

/-- Fixture: the full-span segment of `exDocHello`. -/
def exSegHello : Segment :=
  ⟨5, 1, ("hello world").toList, 0, 0, 11, none, none, none, none, none,
    some "unchecked", false, false⟩

/-- Fixture: the state holding `exDocHello` and `exSegHello`. -/
def exStateHello : DB := ⟨[exDocHello], [exSegHello], 30⟩

/-- Fixture: a document whose content makes the rule phase return exactly one
position (`[0]`), with its single full-span segment. -/
def exDocTib : Document :=
  ⟨1, ['༄', '༅', '༅', 'x', 'y'], none, none, 1, 0, 0, some "active"⟩

/-- Fixture: the full-span segment of `exDocTib`. -/
def exSegTib : Segment :=
  ⟨5, 1, ['༄', '༅', '༅', 'x', 'y'], 0, 0, 5, none, none, none, none, none,
    some "unchecked", false, false⟩

/-- Fixture: the state holding `exDocTib` and `exSegTib`. -/
def exStateTib : DB := ⟨[exDocTib], [exSegTib], 40⟩

/-- C3: in the parent-segment subdivision, a rule phase that finds no
positions does not fall back to the external classifier: whatever the
classifier would answer, the operation fails with the generic runtime fault
(`len(None)`) and rolls back.  By contrast, a rule phase that finds exactly
one position does consult the classifier: its offsets are materialized on
success and its failure propagates. -/
theorem subdivide_rule_none_never_reaches_classifier :
    (∀ classifier : List Char → Except OpError (List Nat),
      segment_and_create_from_parent exStateHello 5 none classifier =
        (Except.error OpError.pyRuntimeFault, exStateHello)) ∧
    (segment_and_create_from_parent exStateTib 5 none
        (fun _ => Except.ok [0, 3])).1 = Except.ok (2, [40, 41]) ∧
    (segment_and_create_from_parent exStateTib 5 none
        (fun _ => Except.error OpError.detectionFailed)).1 =
      Except.error OpError.detectionFailed :=
  ⟨fun _ => rfl, rfl, rfl⟩

/-- Fixture: a five-character document with no segments. -/
def exDocABCDE : Document :=
  ⟨1, ['A', 'B', 'C', 'D', 'E'], none, none, 0, 0, 0, some "active"⟩

/-- Fixture: the state holding only `exDocABCDE`. -/
def exStateABCDE : DB := ⟨[exDocABCDE], [], 10⟩

/-- C4 counterexample: creating a segment with omitted text and span
`[3, 2)` over the five-character document does not fail — no `InvalidSpan`
is raised for `span_start ≥ span_end`; the operation succeeds and stores the
empty slice as the segment text. -/
theorem create_segment_accepts_reversed_span :
    ((create_segment exStateABCDE 1 0 3 2 none none none none none none).1).map
      (fun t => t.text) = Except.ok [] := rfl

/-- C4 (amended): for a create whose text argument is omitted, the operation
fails with `InvalidSpan` exactly when `span_start < 0` or `span_end` exceeds
the content length; a reversed span (`span_start ≥ span_end`) is not rejected
— in every non-failing case the stored text is the Python slice
`content[span_start:span_end]` (empty when the span is reversed). -/
theorem create_segment_default_text_spec (s : DB) (did : Nat) (d : Document)
    (segment_index span_start span_end : Int) (hd : findDoc s did = some d) :
    ((span_start < 0 ∨ (d.content.length : Int) < span_end) →
      create_segment s did segment_index span_start span_end none none none none none none =
        (Except.error OpError.invalidSpan, s)) ∧
    (¬(span_start < 0 ∨ (d.content.length : Int) < span_end) →
      ∃ t s1,
        create_segment s did segment_index span_start span_end none none none none none none =
          (Except.ok t, s1) ∧
        t.text = pySlice d.content span_start span_end ∧
        t.span_start = span_start ∧ t.span_end = span_end) := by
  constructor
  · intro hbad
    simp only [create_segment, hd, truthyStr]
    rw [if_neg (by simp), if_pos hbad]
  · intro hgood
    simp only [create_segment, hd, truthyStr]
    rw [if_neg (by simp), if_neg hgood]
    exact ⟨_, _, rfl, rfl, rfl, rfl⟩

/-- Closed instance of the amended create theorem: a create with omitted text
and the in-range span `[1, 3)` over the five-character document succeeds and
stores the slice. -/
theorem create_segment_default_text_spec_witness :
    ∃ t s1,
      create_segment exStateABCDE 1 0 1 3 none none none none none none =
        (Except.ok t, s1) ∧
      t.text = pySlice exDocABCDE.content 1 3 ∧
      t.span_start = 1 ∧ t.span_end = 3 :=
  (create_segment_default_text_spec exStateABCDE 1 exDocABCDE 0 1 3 rfl).2
    (by decide)

@[simp] theorem truthyStr_none : truthyStr none = false := rfl

/-- C10: every document the upload endpoint creates from file content stores
the file text with all ASCII control characters except newline removed (no
stripped character can appear in the stored content), while a document
created from the direct content field stores that text verbatim; and the
stripping is not the identity, so stored content can differ from the uploaded
file text. -/
theorem upload_document_content_paths (s : DB) (f c : List Char)
    (content : Option (List Char)) (filename user_id : Option String) :
    (f ≠ [] → remove_escape_chars_except_newline f ≠ [] →
      ∀ d s1, upload_document s (some f) content filename user_id = (Except.ok d, s1) →
        d.content = remove_escape_chars_except_newline f ∧
          ∀ ch ∈ d.content, isStrippedCtrl ch = false) ∧
    (c ≠ [] →
      ∀ d s1, upload_document s none (some c) filename user_id = (Except.ok d, s1) →
        d.content = c) ∧
    ((upload_document exStateAB (some ['a', Char.ofNat 1, 'b']) none none none).1).map
        (fun d => d.content) = Except.ok ['a', 'b'] ∧
      (['a', 'b'] : List Char) ≠ ['a', Char.ofNat 1, 'b'] := by
  refine ⟨?_, ?_, rfl, by decide⟩
  · intro hf hstrip d s1 hup
    have htr : truthyStr (some f) = true := by
      simp [truthyStr, List.isEmpty_iff, hf]
    have htr2 : truthyStr (some (remove_escape_chars_except_newline f)) = true := by
      simp [truthyStr, List.isEmpty_iff, hstrip]
    rw [upload_document] at hup
    rw [if_pos htr] at hup
    simp only [Option.getD_some, htr2, Bool.not_true, Bool.false_and,
      Bool.false_eq_true, if_false] at hup
    by_cases hws : (pyStrip (remove_escape_chars_except_newline f)).length = 0
    · rw [if_pos hws] at hup
      simp at hup
    · rw [if_neg hws] at hup
      simp only [create_document] at hup
      rw [Prod.ext_iff] at hup
      obtain ⟨h1, h2⟩ := hup
      simp only at h1
      cases h1
      exact ⟨rfl, fun ch hch => by simpa using List.of_mem_filter hch⟩
  · intro hc d s1 hup
    have htr : truthyStr (some c) = true := by
      simp [truthyStr, List.isEmpty_iff, hc]
    rw [upload_document] at hup
    simp only [truthyStr_none, Bool.false_eq_true, if_false, Bool.not_false, htr,
      Bool.true_and, eq_self_iff_true, if_true, Option.getD_some] at hup
    by_cases hws : (pyStrip c).length = 0
    · rw [if_pos hws] at hup
      simp at hup
    · rw [if_neg hws] at hup
      simp only [create_document] at hup
      rw [Prod.ext_iff] at hup
      obtain ⟨h1, h2⟩ := hup
      simp only at h1
      cases h1
      rfl

/-- Fixture: the document the upload endpoint creates from the file text
`['a', 0x01, 'b']` over `exStateAB`. -/
def exUploadedDoc : Document := ⟨10, ['a', 'b'], none, none, 0, 0, 0, some "active"⟩

/-- Fixture: the state after that upload. -/
def exUploadedState : DB := ⟨[exDocAB, exUploadedDoc], [], 11⟩

/-- Closed instance of the upload theorem: the file text `['a', 0x01, 'b']`
is stored as `['a', 'b']`, free of stripped control characters. -/
theorem upload_document_content_paths_witness :
    exUploadedDoc.content = remove_escape_chars_except_newline ['a', Char.ofNat 1, 'b'] ∧
      ∀ ch ∈ exUploadedDoc.content, isStrippedCtrl ch = false :=
  (upload_document_content_paths exStateAB ['a', Char.ofNat 1, 'b'] [] none none none).1
    (by decide) (by decide) exUploadedDoc exUploadedState rfl

theorem find?_id_of_mem_nodup (l : List Segment) (t : Segment)
    (hnodup : (l.map (fun u => u.id)).Nodup) (hmem : t ∈ l) :
    l.find? (fun u => u.id == t.id) = some t := by
  induction l with
  | nil => cases hmem
  | cons v vs ih =>
    rw [List.map_cons, List.nodup_cons] at hnodup
    rcases List.mem_cons.mp hmem with rfl | hmem2
    · simp [List.find?]
    · have hvne : (v.id == t.id) = false := by
        rw [beq_eq_false_iff_ne]
        intro he
        exact hnodup.1 (he ▸ List.mem_map_of_mem _ hmem2)
      simp only [List.find?, hvne]
      exact ih hnodup.2 hmem2

theorem findSeg_of_mem (s : DB) (t : Segment)
    (hnodup : (s.segments.map (fun u => u.id)).Nodup) (hmem : t ∈ s.segments) :
    findSeg s t.id = some t :=
  find?_id_of_mem_nodup s.segments t hnodup hmem

theorem pySliceTo_of_le (l : List Char) (p : Int) (h0 : 0 ≤ p)
    (hL : p ≤ (l.length : Int)) : pySliceTo l p = l.take p.toNat := by
  rw [pySliceTo, pyBound, if_neg (by omega)]
  have : min p.toNat l.length = p.toNat := by omega
  rw [this]

theorem pySliceFrom_of_le (l : List Char) (p : Int) (h0 : 0 ≤ p)
    (hL : p ≤ (l.length : Int)) : pySliceFrom l p = l.drop p.toNat := by
  rw [pySliceFrom, pyBound, if_neg (by omega)]
  have : min p.toNat l.length = p.toNat := by omega
  rw [this]

theorem pyOrOS_of_truthy (o : Option String) (d : String)
    (h1 : o ≠ none) (h2 : o ≠ some "") : some (pyOrOS o d) = o := by
  match o with
  | none => exact absurd rfl h1
  | some v =>
    rw [pyOrOS]
    rw [if_neg (fun he => h2 (by rw [he]))]

theorem mem_replaceFirstSeg_map (g f0 : Segment → Segment)
    (sid : Nat) (l : List Segment) (u : Segment) (hu : u ∈ l) (hne : u.id ≠ sid) :
    g u ∈ (replaceFirstSeg f0 sid l).map g := by
  induction l with
  | nil => cases hu
  | cons v vs ih =>
    rw [replaceFirstSeg]
    by_cases hv : (v.id == sid) = true
    · rw [if_pos hv]
      rcases List.mem_cons.mp hu with rfl | h2
      · simp only [beq_iff_eq] at hv
        exact absurd hv hne
      · rw [List.map_cons]
        exact List.mem_cons_of_mem _ (List.mem_map_of_mem g h2)
    · rw [if_neg hv]
      rcases List.mem_cons.mp hu with rfl | h2
      · rw [List.map_cons]
        exact List.mem_cons_self _ _
      · rw [List.map_cons]
        exact List.mem_cons_of_mem _ (ih h2)

theorem update_document_progress_segments (s : DB) (did : Nat) :
    (update_document_progress s did).segments = s.segments := by
  rw [update_document_progress.eq_def]
  cases findDoc s did
  · rfl
  · rfl

/-- C6: for an existing, well-formed segment (distinct row ids, text length
matching its span, a non-empty stored status as every engine-created row
has), split fails with `InvalidSplitPosition` unless the position is strictly
between 0 and the segment's own text length; on success the segment is shrunk
to the first half of its span, the new segment covers the second half and
inherits the parent reference and status with null title and author
(unannotated), and every other segment of the document with a greater index
is shifted up by exactly one while all others are untouched. -/
theorem split_segment_spec (s : DB) (t : Segment) (p : Int) (document_id : Option Nat)
    (hnodup : (s.segments.map (fun u => u.id)).Nodup) (hmem : t ∈ s.segments)
    (hlen : (t.text.length : Int) = t.span_end - t.span_start)
    (hst1 : t.status ≠ none) (hst2 : t.status ≠ some "") :
    ((p ≤ 0 ∨ (t.text.length : Int) ≤ p) →
      split_segment s t.id p document_id = (Except.error OpError.invalidSplitPosition, s)) ∧
    (0 < p → p < (t.text.length : Int) →
      ∃ t1 t2 s1, split_segment s t.id p document_id = (Except.ok (t1, t2), s1) ∧
        t1.id = t.id ∧ t1.span_start = t.span_start ∧ t1.span_end = t.span_start + p ∧
        t1.text = t.text.take p.toNat ∧ t1.title = t.title ∧ t1.author = t.author ∧
        t2.span_start = t.span_start + p ∧ t2.span_end = t.span_end ∧
        t2.text = t.text.drop p.toNat ∧
        t2.parent_segment_id = t.parent_segment_id ∧ t2.status = t.status ∧
        t2.title = none ∧ t2.author = none ∧ t2.is_annotated = false ∧
        t2.segment_index = t.segment_index + 1 ∧
        (∀ u ∈ s.segments, u.id ≠ t.id → u.document_id = t.document_id →
          t.segment_index < u.segment_index →
          { u with segment_index := u.segment_index + 1 } ∈ s1.segments) ∧
        (∀ u ∈ s.segments, u.id ≠ t.id →
          ¬(u.document_id = t.document_id ∧ t.segment_index < u.segment_index) →
          u ∈ s1.segments)) := by
  have hfind : findSeg s t.id = some t := findSeg_of_mem s t hnodup hmem
  constructor
  · intro hbad
    rw [split_segment.eq_def]
    simp only [hfind]
    rw [split_segment_core, if_pos (by omega)]
  · intro hp0 hpL
    rw [split_segment.eq_def]
    simp only [hfind]
    rw [split_segment_core, if_neg (by omega), if_neg (by omega)]
    refine ⟨_, _, _, rfl, rfl, rfl, rfl, ?_, rfl, rfl, rfl, rfl, ?_, rfl, ?_, rfl, rfl, rfl, rfl, ?_, ?_⟩
    · exact pySliceTo_of_le t.text p (by omega) (by omega)
    · exact pySliceFrom_of_le t.text p (by omega) (by omega)
    · exact pyOrOS_of_truthy t.status "unchecked" hst1 hst2
    · intro u hu hne hdoc hidx
      rw [update_document_progress_segments]
      apply List.mem_append_left
      have hg : (fun v => if v.document_id == t.document_id &&
          decide (t.segment_index < v.segment_index) then
            { v with segment_index := v.segment_index + 1 } else v) u =
          { u with segment_index := u.segment_index + 1 } := by
        simp [hdoc, hidx]
      rw [← hg]
      exact mem_replaceFirstSeg_map _ _ t.id s.segments u hu hne
    · intro u hu hne hn
      rw [update_document_progress_segments]
      apply List.mem_append_left
      have hg : (fun v => if v.document_id == t.document_id &&
          decide (t.segment_index < v.segment_index) then
            { v with segment_index := v.segment_index + 1 } else v) u = u := by
        by_cases h1 : u.document_id = t.document_id
        · have h2 : ¬ t.segment_index < u.segment_index := fun hlt => hn ⟨h1, hlt⟩
          simp [h1, h2]
        · simp [h1]
      rw [← hg]
      exact mem_replaceFirstSeg_map _ _ t.id s.segments u hu hne

/-- Fixture: the ten-character document of the design's concrete scenario. -/
def exDocTen : Document :=
  ⟨1, ['A', 'B', 'C', 'D', 'E', 'F', 'G', 'H', 'I', 'J'], none, none, 1, 0, 0, some "active"⟩

/-- Fixture: the single full-span segment of `exDocTen`. -/
def exSegTen : Segment :=
  ⟨5, 1, ['A', 'B', 'C', 'D', 'E', 'F', 'G', 'H', 'I', 'J'], 0, 0, 10, none, none,
    none, none, none, some "unchecked", false, false⟩

/-- Fixture: the state holding `exDocTen` with its one segment. -/
def exStateTen : DB := ⟨[exDocTen], [exSegTen], 10⟩

/-- Closed instance of the split theorem at the design's concrete scenario:
splitting the ten-character segment at position 4. -/
theorem split_segment_spec_witness :
    ∃ t1 t2 s1, split_segment exStateTen exSegTen.id 4 none = (Except.ok (t1, t2), s1) ∧
      t1.id = exSegTen.id ∧ t1.span_start = exSegTen.span_start ∧
      t1.span_end = exSegTen.span_start + 4 ∧
      t1.text = exSegTen.text.take (4 : Int).toNat ∧
      t1.title = exSegTen.title ∧ t1.author = exSegTen.author ∧
      t2.span_start = exSegTen.span_start + 4 ∧ t2.span_end = exSegTen.span_end ∧
      t2.text = exSegTen.text.drop (4 : Int).toNat ∧
      t2.parent_segment_id = exSegTen.parent_segment_id ∧ t2.status = exSegTen.status ∧
      t2.title = none ∧ t2.author = none ∧ t2.is_annotated = false ∧
      t2.segment_index = exSegTen.segment_index + 1 ∧
      (∀ u ∈ exStateTen.segments, u.id ≠ exSegTen.id →
        u.document_id = exSegTen.document_id →
        exSegTen.segment_index < u.segment_index →
        { u with segment_index := u.segment_index + 1 } ∈ s1.segments) ∧
      (∀ u ∈ exStateTen.segments, u.id ≠ exSegTen.id →
        ¬(u.document_id = exSegTen.document_id ∧
            exSegTen.segment_index < u.segment_index) →
        u ∈ s1.segments) :=
  (split_segment_spec exStateTen exSegTen 4 none (by decide) (by decide) (by decide)
    (by decide) (by decide)).2 (by decide) (by decide)

theorem contains_eq_decide_mem (l : List Nat) (a : Nat) :
    l.contains a = decide (a ∈ l) := by
  simp [List.elem_eq_mem]

theorem mem_insertByIndex {u x : Segment} {l : List Segment} :
    u ∈ insertByIndex x l ↔ u = x ∨ u ∈ l := by
  induction l with
  | nil => simp [insertByIndex]
  | cons y ys ih =>
    rw [insertByIndex]
    by_cases h : x.segment_index ≤ y.segment_index
    · simp [h]
    · rw [if_neg h]
      simp only [List.mem_cons, ih]
      tauto

theorem mem_sortByIndex {u : Segment} {l : List Segment} :
    u ∈ sortByIndex l ↔ u ∈ l := by
  induction l with
  | nil => simp [sortByIndex]
  | cons y ys ih =>
    simp only [sortByIndex, List.foldr_cons] at *
    rw [mem_insertByIndex, ih, List.mem_cons]

theorem sortByIndex_pair (a b : Segment) (h : a.segment_index ≤ b.segment_index) :
    sortByIndex [a, b] = [a, b] := by
  simp only [sortByIndex, List.foldr_cons, List.foldr_nil, insertByIndex, if_pos h]

theorem mem_replaceFirstSeg (f0 : Segment → Segment) (sid : Nat) (l : List Segment)
    (u : Segment) (hu : u ∈ l) (hne : u.id ≠ sid) : u ∈ replaceFirstSeg f0 sid l := by
  have h := mem_replaceFirstSeg_map id f0 sid l u hu hne
  simpa using h

/-- Characterization of a successful merge in terms of the fetched,
index-ordered segment rows: the survivor's fields, the deletion of the other
merged rows, and the index shift of every later segment. -/
theorem merge_segments_success (s : DB) (segment_ids : List Nat)
    (first : Segment) (rest : List Segment)
    (h2 : 2 ≤ segment_ids.length)
    (hfetch : sortByIndex (s.segments.filter (fun u => segment_ids.contains u.id)) =
      first :: rest)
    (hlen : (first :: rest).length = segment_ids.length)
    (hdoc : ∀ u ∈ first :: rest, u.document_id = first.document_id) :
    ∃ m s1, merge_segments s segment_ids = (Except.ok m, s1) ∧
      m.id = first.id ∧
      m.text = ((first :: rest).map (fun u => u.text)).flatten ∧
      m.span_start = first.span_start ∧
      m.span_end = (rest.getLastD first).span_end ∧
      m.title = firstTruthy ((first :: rest).map (fun u => u.title)) ∧
      m.author = firstTruthy ((first :: rest).map (fun u => u.author)) ∧
      m.title_bdrc_id = firstTruthy ((first :: rest).map (fun u => u.title_bdrc_id)) ∧
      m.author_bdrc_id = firstTruthy ((first :: rest).map (fun u => u.author_bdrc_id)) ∧
      m.segment_index = first.segment_index ∧
      (∀ v ∈ s1.segments, v.id ∉ rest.map (fun u => u.id)) ∧
      (∀ u ∈ s.segments, u.id ∉ segment_ids →
        u.document_id = first.document_id → first.segment_index < u.segment_index →
        { u with segment_index :=
            u.segment_index - ((segment_ids.length : Int) - 1) } ∈ s1.segments) ∧
      (∀ u ∈ s.segments, u.id ∉ segment_ids →
        ¬(u.document_id = first.document_id ∧ first.segment_index < u.segment_index) →
        u ∈ s1.segments) := by
  have hall : ((first :: rest).all
      (fun u => u.document_id == first.document_id)) = true := by
    rw [List.all_eq_true]
    intro u hu
    rw [beq_iff_eq]
    exact hdoc u hu
  have hfirstmem : first.id ∈ segment_ids := by
    have h1 : first ∈ sortByIndex (s.segments.filter
        (fun u => segment_ids.contains u.id)) := by
      rw [hfetch]; exact List.mem_cons_self _ _
    have h3 := List.of_mem_filter (mem_sortByIndex.mp h1)
    simpa [contains_eq_decide_mem] using h3
  have hrestids : ∀ w ∈ rest, w.id ∈ segment_ids := by
    intro w hw
    have h1 : w ∈ sortByIndex (s.segments.filter
        (fun u => segment_ids.contains u.id)) := by
      rw [hfetch]; exact List.mem_cons_of_mem _ hw
    have h3 := List.of_mem_filter (mem_sortByIndex.mp h1)
    simpa [contains_eq_decide_mem] using h3
  rw [merge_segments]
  rw [if_neg (by omega)]
  simp only [hfetch]
  rw [if_neg (fun h => h hlen)]
  simp only [hall, Bool.not_true, Bool.false_eq_true, if_false]
  refine ⟨_, _, rfl, rfl, rfl, rfl, rfl, rfl, rfl, rfl, rfl, rfl, ?_, ?_, ?_⟩
  · intro v hv hcon
    rw [update_document_progress_segments] at hv
    obtain ⟨w, hw, rfl⟩ := List.mem_map.mp hv
    have hkeep := List.of_mem_filter hw
    have hwid : w.id ∈ rest.map (fun u => u.id) := by
      by_cases hc : (w.document_id == first.document_id &&
          decide (first.segment_index < w.segment_index)) = true
      · rw [if_pos hc] at hcon; exact hcon
      · rw [if_neg hc] at hcon; exact hcon
    have hcontains : ((rest.map (fun u => u.id)).contains w.id) = true := by
      simpa [contains_eq_decide_mem] using hwid
    rw [hcontains] at hkeep
    simp at hkeep
  · intro u hu hnin hdoc2 hgt
    rw [update_document_progress_segments]
    have hne : u.id ≠ first.id := fun he => hnin (he ▸ hfirstmem)
    have hnotrest : u.id ∉ rest.map (fun v => v.id) := by
      intro hmem2
      obtain ⟨w, hwmem, hwid⟩ := List.mem_map.mp hmem2
      exact hnin (hwid ▸ hrestids w hwmem)
    have h2f : ∀ f0 : Segment → Segment,
        u ∈ (replaceFirstSeg f0 first.id s.segments).filter
          (fun z => !((rest.map (fun v => v.id)).contains z.id)) := by
      intro f0
      rw [List.mem_filter]
      exact ⟨mem_replaceFirstSeg f0 first.id s.segments u hu hne,
        by simpa [contains_eq_decide_mem] using hnotrest⟩
    rw [List.mem_map]
    refine ⟨u, h2f _, ?_⟩
    have hc : (u.document_id == first.document_id &&
        decide (first.segment_index < u.segment_index)) = true := by
      simp [hdoc2, hgt]
    rw [if_pos hc, hlen]
  · intro u hu hnin hn
    rw [update_document_progress_segments]
    have hne : u.id ≠ first.id := fun he => hnin (he ▸ hfirstmem)
    have hnotrest : u.id ∉ rest.map (fun v => v.id) := by
      intro hmem2
      obtain ⟨w, hwmem, hwid⟩ := List.mem_map.mp hmem2
      exact hnin (hwid ▸ hrestids w hwmem)
    have h2f : ∀ f0 : Segment → Segment,
        u ∈ (replaceFirstSeg f0 first.id s.segments).filter
          (fun z => !((rest.map (fun v => v.id)).contains z.id)) := by
      intro f0
      rw [List.mem_filter]
      exact ⟨mem_replaceFirstSeg f0 first.id s.segments u hu hne,
        by simpa [contains_eq_decide_mem] using hnotrest⟩
    rw [List.mem_map]
    refine ⟨u, h2f _, ?_⟩
    have hc : (u.document_id == first.document_id &&
        decide (first.segment_index < u.segment_index)) = false := by
      rcases not_and_or.mp hn with h | h
      · simp [beq_eq_false_iff_ne.mpr h]
      · simp [h]
    rw [if_neg (by rw [hc]; exact Bool.false_ne_true)]

@[simp] theorem update_annotation_status_id (t : Segment) :
    (Segment.update_annotation_status t).id = t.id := rfl

@[simp] theorem update_annotation_status_document_id (t : Segment) :
    (Segment.update_annotation_status t).document_id = t.document_id := rfl

@[simp] theorem update_annotation_status_segment_index (t : Segment) :
    (Segment.update_annotation_status t).segment_index = t.segment_index := rfl

@[simp] theorem update_annotation_status_text (t : Segment) :
    (Segment.update_annotation_status t).text = t.text := rfl

@[simp] theorem update_annotation_status_span_start (t : Segment) :
    (Segment.update_annotation_status t).span_start = t.span_start := rfl

@[simp] theorem update_annotation_status_span_end (t : Segment) :
    (Segment.update_annotation_status t).span_end = t.span_end := rfl

theorem filter_pair_of_nodup (l : List Segment) (t t1 : Segment)
    (g : Segment → Segment) (N : Nat)
    (hnodup : (l.map (fun u => u.id)).Nodup) (hmem : t ∈ l)
    (hfresh : ∀ u ∈ l, u.id < N)
    (ht1 : t1.id = t.id) (hgid : ∀ u, (g u).id = u.id) (hgt1 : g t1 = t1) :
    ((replaceFirstSeg (fun _ => t1) t.id l).map g).filter
      (fun u => ([t.id, N] : List Nat).contains u.id) = [t1] := by
  induction l with
  | nil => cases hmem
  | cons v vs ih =>
    rw [List.map_cons, List.nodup_cons] at hnodup
    rw [replaceFirstSeg]
    by_cases hv : (v.id == t.id) = true
    · rw [if_pos hv]
      rw [List.map_cons, hgt1]
      have hp : (([t.id, N] : List Nat).contains t1.id) = true := by
        simp [contains_eq_decide_mem, ht1]
      rw [List.filter_cons_of_pos (p := fun u : Segment =>
        ([t.id, N] : List Nat).contains u.id) hp]
      have hnil : (vs.map g).filter
          (fun u => ([t.id, N] : List Nat).contains u.id) = [] := by
        rw [List.filter_eq_nil_iff]
        intro a ha
        obtain ⟨w, hwmem, rfl⟩ := List.mem_map.mp ha
        have hw1 : w.id ≠ t.id := by
          intro he
          rw [beq_iff_eq] at hv
          rw [← hv] at he
          exact hnodup.1 (he ▸ List.mem_map_of_mem _ hwmem)
        have hw2 : w.id ≠ N := Nat.ne_of_lt (hfresh w (List.mem_cons_of_mem _ hwmem))
        simp [contains_eq_decide_mem, hgid, hw1, hw2]
      rw [hnil]
    · rw [if_neg hv]
      rw [List.map_cons]
      have hv1 : v.id ≠ t.id := by
        intro he
        rw [← he] at hv
        simp at hv
      have hv2 : v.id ≠ N := Nat.ne_of_lt (hfresh v (List.mem_cons_self _ _))
      rw [List.filter_cons_of_neg (p := fun u : Segment =>
        ([t.id, N] : List Nat).contains u.id)
        (by simp [contains_eq_decide_mem, hgid, hv1, hv2])]
      have hmem2 : t ∈ vs := by
        rcases List.mem_cons.mp hmem with rfl | h
        · simp at hv
        · exact h
      exact ih hnodup.2 hmem2 (fun u hu => hfresh u (List.mem_cons_of_mem _ hu))

/-- C5: in a well-formed state (distinct row ids below the fresh-id counter)
and for a segment whose text length matches its span, splitting at any interior
position and then merging the two resulting segments (first followed by
second) yields one segment carrying the original text and the original span. -/
theorem split_merge_round_trip (s : DB) (t : Segment) (p : Int)
    (hnodup : (s.segments.map (fun u => u.id)).Nodup) (hmem : t ∈ s.segments)
    (hfresh : ∀ u ∈ s.segments, u.id < s.nextId)
    (hlen : (t.text.length : Int) = t.span_end - t.span_start)
    (hp0 : 0 < p) (hpL : p < (t.text.length : Int)) :
    ∃ t1 t2 s1 m s2,
      split_segment s t.id p none = (Except.ok (t1, t2), s1) ∧
      merge_segments s1 [t1.id, t2.id] = (Except.ok m, s2) ∧
      m.text = t.text ∧ m.span_start = t.span_start ∧ m.span_end = t.span_end := by
  have hfind : findSeg s t.id = some t := findSeg_of_mem s t hnodup hmem
  set T1 : Segment := Segment.update_annotation_status
    { t with text := pySliceTo t.text p, span_end := t.span_start + p } with hT1def
  set T2 : Segment :=
    { id := s.nextId, document_id := t.document_id, text := pySliceFrom t.text p,
      segment_index := t.segment_index + 1, span_start := t.span_start + p,
      span_end := t.span_end, title := none, author := none, title_bdrc_id := none,
      author_bdrc_id := none, parent_segment_id := t.parent_segment_id,
      status := some (pyOrOS t.status "unchecked"), is_annotated := false,
      is_attached := false } with hT2def
  set g : Segment → Segment := fun u =>
    if u.document_id == t.document_id && decide (t.segment_index < u.segment_index) then
      { u with segment_index := u.segment_index + 1 } else u with hgdef
  set S1 : DB := update_document_progress
    { s with segments := ((replaceFirstSeg (fun _ => T1) t.id s.segments).map g) ++ [T2],
             nextId := s.nextId + 1 } t.document_id with hS1def
  have hsplit : split_segment s t.id p none = (Except.ok (T1, T2), S1) := by
    rw [split_segment.eq_def]
    simp only [hfind]
    rw [split_segment_core, if_neg (by omega), if_neg (by omega)]
  have hgid : ∀ u, (g u).id = u.id := by
    intro u
    rw [hgdef]
    dsimp only
    split <;> rfl
  have hgT1 : g T1 = T1 := by
    rw [hgdef]
    dsimp only
    rw [if_neg]
    intro hcond
    rw [Bool.and_eq_true] at hcond
    have := of_decide_eq_true hcond.2
    rw [hT1def] at this
    simp at this
  have hS1segs : S1.segments =
      ((replaceFirstSeg (fun _ => T1) t.id s.segments).map g) ++ [T2] :=
    (update_document_progress_segments _ _).trans rfl
  have hT2mem : (([t.id, s.nextId] : List Nat).contains T2.id) = true := by
    simp [contains_eq_decide_mem]
  have hfetch : sortByIndex (S1.segments.filter
      (fun u => ([t.id, s.nextId] : List Nat).contains u.id)) = T1 :: [T2] := by
    rw [hS1segs, List.filter_append]
    rw [filter_pair_of_nodup s.segments t T1 g s.nextId hnodup hmem hfresh rfl hgid hgT1]
    rw [List.filter_cons_of_pos (p := fun u : Segment =>
      ([t.id, s.nextId] : List Nat).contains u.id) hT2mem]
    rw [List.filter_nil]
    exact sortByIndex_pair T1 T2
      (by simp only [hT1def, hT2def, update_annotation_status_segment_index]; omega)
  have hdocs : ∀ u ∈ T1 :: [T2], u.document_id = T1.document_id := by
    intro u hu
    rcases List.mem_cons.mp hu with rfl | hu2
    · rfl
    · rcases List.mem_cons.mp hu2 with rfl | hu3
      · rfl
      · cases hu3
  obtain ⟨m, s2, hmerge, hmid, hmtext, hmstart, hmend, hrest⟩ :=
    merge_segments_success S1 [t.id, s.nextId] T1 [T2] (by simp) hfetch (by simp) hdocs
  refine ⟨T1, T2, S1, m, s2, hsplit, hmerge, ?_, ?_, ?_⟩
  · rw [hmtext]
    show pySliceTo t.text p ++ (pySliceFrom t.text p ++ []) = t.text
    rw [List.append_nil, pySliceTo_of_le t.text p (by omega) (by omega),
      pySliceFrom_of_le t.text p (by omega) (by omega)]
    exact List.take_append_drop _ _
  · rw [hmstart]
    rfl
  · rw [hmend]
    rfl

/-- Closed instance of the round trip at the design's concrete scenario:
the ten-character segment split at 4 and merged back keeps text and span. -/
theorem split_merge_round_trip_witness :
    ∃ t1 t2 s1 m s2,
      split_segment exStateTen exSegTen.id 4 none = (Except.ok (t1, t2), s1) ∧
      merge_segments s1 [t1.id, t2.id] = (Except.ok m, s2) ∧
      m.text = exSegTen.text ∧ m.span_start = exSegTen.span_start ∧
      m.span_end = exSegTen.span_end :=
  split_merge_round_trip exStateTen exSegTen 4 (by decide) (by decide) (by decide)
    (by decide) (by decide) (by decide)

/-- Fixture: a segment whose title is the empty string — non-null but falsy
under Python truthiness. -/
def exSegEmptyTitle : Segment :=
  ⟨5, 1, ['A'], 0, 0, 1, some "", none, none, none, none, some "unchecked", false, false⟩

/-- Fixture: a segment with the non-empty title `T`. -/
def exSegTitledT : Segment :=
  ⟨6, 1, ['B'], 1, 1, 2, some "T", none, none, none, none, some "unchecked", true, false⟩

/-- Fixture: the two-character document of the two titled segments. -/
def exDocTitles : Document := ⟨1, ['A', 'B'], none, none, 2, 1, 50, some "active"⟩

/-- Fixture: the state holding the empty-titled and `T`-titled segments. -/
def exStateTitles : DB := ⟨[exDocTitles], [exSegEmptyTitle, exSegTitledT], 20⟩

/-- C7 counterexample: merging a first segment whose title is the empty
string (non-null) with a second segment titled `T` yields the title `T` —
the code takes the first truthy value, not the first non-null one, so the
first-non-null reading of the claim fails at this input. -/
theorem merge_title_skips_empty_string :
    ((merge_segments exStateTitles [5, 6]).1).map (fun m => m.title) =
      Except.ok (some "T") ∧ (some "T" : Option String) ≠ some "" :=
  ⟨rfl, by decide⟩

/-- C7 (amended): a merge request fails with no state change when it has
fewer than two ids, an unresolvable (or duplicate) id, or ids spanning two
documents; on success the surviving first segment carries the concatenation
of the fetched texts in segment-index order, its span end becomes the last
merged segment's span end, its title, author and the two reference ids take
the first non-null, non-empty value scanning the merged rows left to right,
the other merged rows are deleted, and every later segment of the document
has its index reduced by one less than the merge count. -/
theorem merge_segments_spec (s : DB) (segment_ids : List Nat) :
    (segment_ids.length < 2 →
      merge_segments s segment_ids = (Except.error OpError.needTwoSegments, s)) ∧
    (2 ≤ segment_ids.length →
      (sortByIndex (s.segments.filter (fun u => segment_ids.contains u.id))).length ≠
        segment_ids.length →
      merge_segments s segment_ids = (Except.error OpError.segmentsMissing, s)) ∧
    (∀ first rest,
      sortByIndex (s.segments.filter (fun u => segment_ids.contains u.id)) =
        first :: rest →
      (first :: rest).length = segment_ids.length →
      2 ≤ segment_ids.length →
      ((¬ ∀ u ∈ first :: rest, u.document_id = first.document_id) →
        merge_segments s segment_ids = (Except.error OpError.crossDocumentMerge, s)) ∧
      ((∀ u ∈ first :: rest, u.document_id = first.document_id) →
        ∃ m s1, merge_segments s segment_ids = (Except.ok m, s1) ∧
          m.id = first.id ∧
          m.text = ((first :: rest).map (fun u => u.text)).flatten ∧
          m.span_start = first.span_start ∧
          m.span_end = (rest.getLastD first).span_end ∧
          m.title = firstTruthy ((first :: rest).map (fun u => u.title)) ∧
          m.author = firstTruthy ((first :: rest).map (fun u => u.author)) ∧
          m.title_bdrc_id = firstTruthy ((first :: rest).map (fun u => u.title_bdrc_id)) ∧
          m.author_bdrc_id = firstTruthy ((first :: rest).map (fun u => u.author_bdrc_id)) ∧
          m.segment_index = first.segment_index ∧
          (∀ v ∈ s1.segments, v.id ∉ rest.map (fun u => u.id)) ∧
          (∀ u ∈ s.segments, u.id ∉ segment_ids →
            u.document_id = first.document_id → first.segment_index < u.segment_index →
            { u with segment_index :=
                u.segment_index - ((segment_ids.length : Int) - 1) } ∈ s1.segments) ∧
          (∀ u ∈ s.segments, u.id ∉ segment_ids →
            ¬(u.document_id = first.document_id ∧
                first.segment_index < u.segment_index) →
            u ∈ s1.segments))) := by
  refine ⟨?_, ?_, ?_⟩
  · intro h
    rw [merge_segments, if_pos h]
  · intro h2 hne
    rw [merge_segments, if_neg (by omega)]
    simp only []
    rw [if_pos hne]
  · intro first rest hfetch hlen h2
    constructor
    · intro hnd
      rw [merge_segments, if_neg (by omega)]
      simp only [hfetch]
      rw [if_neg (fun h => h hlen)]
      have hall : ((first :: rest).all
          (fun u => u.document_id == first.document_id)) = false := by
        rw [Bool.eq_false_iff]
        intro hal
        rw [List.all_eq_true] at hal
        exact hnd (fun u hu => by have := hal u hu; rwa [beq_iff_eq] at this)
      rw [if_pos (by rw [hall]; rfl)]
    · intro hdoc
      exact merge_segments_success s segment_ids first rest h2 hfetch hlen hdoc

/-- Closed instance of the merge theorem on the two titled segments: the
survivor concatenates the texts, takes span end 2 and the first truthy
title. -/
theorem merge_segments_spec_witness :
    ∃ m s1, merge_segments exStateTitles [5, 6] = (Except.ok m, s1) ∧
      m.id = exSegEmptyTitle.id ∧
      m.text = (([exSegEmptyTitle, exSegTitledT]).map (fun u => u.text)).flatten ∧
      m.span_start = exSegEmptyTitle.span_start ∧
      m.span_end = ([exSegTitledT].getLastD exSegEmptyTitle).span_end ∧
      m.title = firstTruthy (([exSegEmptyTitle, exSegTitledT]).map (fun u => u.title)) ∧
      m.author = firstTruthy (([exSegEmptyTitle, exSegTitledT]).map (fun u => u.author)) ∧
      m.title_bdrc_id =
        firstTruthy (([exSegEmptyTitle, exSegTitledT]).map (fun u => u.title_bdrc_id)) ∧
      m.author_bdrc_id =
        firstTruthy (([exSegEmptyTitle, exSegTitledT]).map (fun u => u.author_bdrc_id)) ∧
      m.segment_index = exSegEmptyTitle.segment_index ∧
      (∀ v ∈ s1.segments, v.id ∉ [exSegTitledT].map (fun u => u.id)) ∧
      (∀ u ∈ exStateTitles.segments, u.id ∉ [5, 6] →
        u.document_id = exSegEmptyTitle.document_id →
        exSegEmptyTitle.segment_index < u.segment_index →
        { u with segment_index :=
            u.segment_index - ((([5, 6] : List Nat).length : Int) - 1) } ∈ s1.segments) ∧
      (∀ u ∈ exStateTitles.segments, u.id ∉ [5, 6] →
        ¬(u.document_id = exSegEmptyTitle.document_id ∧
            exSegEmptyTitle.segment_index < u.segment_index) →
        u ∈ s1.segments) :=
  ((merge_segments_spec exStateTitles [5, 6]).2.2 exSegEmptyTitle [exSegTitledT]
    (by decide) (by decide) (by decide)).2 (by decide)

theorem mem_keys_dictPut (k : Nat) (v : BulkUpdateItem)
    (m : List (Nat × BulkUpdateItem)) (a : Nat) :
    a ∈ (dictPut k v m).map (fun p => p.1) ↔ a = k ∨ a ∈ m.map (fun p => p.1) := by
  induction m with
  | nil => simp [dictPut]
  | cons q qs ih =>
    rw [dictPut]
    by_cases h : q.1 = k
    · rw [if_pos h]
      simp only [List.map_cons, List.mem_cons, h]
      tauto
    · rw [if_neg h]
      simp only [List.map_cons, List.mem_cons, ih]
      tauto

theorem nodup_keys_dictPut (k : Nat) (v : BulkUpdateItem)
    (m : List (Nat × BulkUpdateItem)) (h : (m.map (fun p => p.1)).Nodup) :
    ((dictPut k v m).map (fun p => p.1)).Nodup := by
  induction m with
  | nil => simp [dictPut]
  | cons q qs ih =>
    rw [List.map_cons, List.nodup_cons] at h
    rw [dictPut]
    by_cases hq : q.1 = k
    · rw [if_pos hq]
      rw [List.map_cons, List.nodup_cons]
      exact h
    · rw [if_neg hq]
      rw [List.map_cons, List.nodup_cons]
      constructor
      · intro hc
        rcases (mem_keys_dictPut k v qs q.1).mp hc with he | he
        · exact hq he
        · exact h.1 he
      · exact ih h.2

theorem buildUpdateDict_keys (l : List BulkUpdateItem) :
    ∀ acc : List (Nat × BulkUpdateItem),
      (∀ a, a ∈ (l.foldl (fun acc it => dictPut it.id it acc) acc).map (fun p => p.1) ↔
        a ∈ acc.map (fun p => p.1) ∨ a ∈ l.map (fun u => u.id)) ∧
      ((acc.map (fun p => p.1)).Nodup →
        ((l.foldl (fun acc it => dictPut it.id it acc) acc).map (fun p => p.1)).Nodup) := by
  induction l with
  | nil => intro acc; simp
  | cons it its ih =>
    intro acc
    rw [List.foldl_cons]
    constructor
    · intro a
      rw [(ih (dictPut it.id it acc)).1 a, mem_keys_dictPut]
      simp only [List.map_cons, List.mem_cons]
      tauto
    · intro hnd
      exact (ih (dictPut it.id it acc)).2 (nodup_keys_dictPut it.id it acc hnd)

theorem bulkDeletePhase_rows (did : Nat) (dl : List Nat) (s s1 : DB)
    (h : bulkDeletePhase did dl s = Except.ok s1) :
    (s1.segments.map (fun u => u.id)).Sublist (s.segments.map (fun u => u.id)) ∧
    (∀ v ∈ s1.segments, ∃ u ∈ s.segments, v.id = u.id ∧ v.document_id = u.document_id) := by
  rw [bulkDeletePhase] at h
  by_cases he : dl.isEmpty = true
  · rw [if_pos he] at h
    cases h
    exact ⟨List.Sublist.refl _, fun v hv => ⟨v, hv, rfl, rfl⟩⟩
  · rw [if_neg he] at h
    by_cases hv : (s.segments.filter
        (fun t => dl.contains t.id && t.document_id == did)).length ≠ dl.length
    · rw [if_pos hv] at h
      cases h
    · rw [if_neg hv] at h
      cases h
      constructor
      · split
        · rw [List.map_map]
          have hcomp : ((fun u : Segment => u.id) ∘ (fun u : Segment =>
              if (u.document_id == did &&
                decide (((s.segments.filter (fun t => dl.contains t.id &&
                  t.document_id == did)).map (fun t => t.segment_index)).max?.getD (-1)
                    < u.segment_index)) = true then
                { u with segment_index := u.segment_index -
                  ((s.segments.filter (fun t => dl.contains t.id &&
                    t.document_id == did)).length : Int) }
              else u)) = fun u : Segment => u.id := by
            funext u
            simp only [Function.comp]
            split <;> rfl
          rw [hcomp]
          exact (List.filter_sublist _).map _
        · exact (List.filter_sublist _).map _
      · intro v hv2
        split at hv2
        · obtain ⟨w, hw, rfl⟩ := List.mem_map.mp hv2
          refine ⟨w, List.mem_of_mem_filter hw, ?_⟩
          split <;> exact ⟨rfl, rfl⟩
        · exact ⟨v, List.mem_of_mem_filter hv2, rfl, rfl⟩

theorem bulkUpdatePhase_missing (did uid : Nat) (updates : List BulkUpdateItem) (s1 : DB)
    (hmem : uid ∈ updates.map (fun u => u.id))
    (hnodup : (s1.segments.map (fun u => u.id)).Nodup)
    (habs : ∀ t ∈ s1.segments, t.id = uid → t.document_id ≠ did) :
    bulkUpdatePhase did updates s1 = Except.error OpError.segmentsMissing := by
  have hne : updates ≠ [] := by rintro rfl; cases hmem
  have hkeys := buildUpdateDict_keys updates []
  have hunodup : (((buildUpdateDict updates).map (fun p => p.1))).Nodup :=
    hkeys.2 (by simp)
  have humem : uid ∈ (buildUpdateDict updates).map (fun p => p.1) :=
    (hkeys.1 uid).mpr (Or.inr hmem)
  have hFnodup : ((s1.segments.filter (fun t =>
      ((buildUpdateDict updates).map (fun p => p.1)).contains t.id &&
        t.document_id == did)).map (fun u => u.id)).Nodup :=
    hnodup.sublist ((List.filter_sublist _).map _)
  have hsub : ∀ a ∈ (s1.segments.filter (fun t =>
      ((buildUpdateDict updates).map (fun p => p.1)).contains t.id &&
        t.document_id == did)).map (fun u => u.id),
      a ∈ (buildUpdateDict updates).map (fun p => p.1) ∧ a ≠ uid := by
    intro a ha
    obtain ⟨t, htF, rfl⟩ := List.mem_map.mp ha
    have hp := List.of_mem_filter htF
    rw [Bool.and_eq_true] at hp
    refine ⟨by simpa [contains_eq_decide_mem] using hp.1, ?_⟩
    intro he
    exact habs t (List.mem_of_mem_filter htF) he (beq_iff_eq.mp hp.2)
  have hmis : (s1.segments.filter (fun t =>
      ((buildUpdateDict updates).map (fun p => p.1)).contains t.id &&
        t.document_id == did)).length ≠
      ((buildUpdateDict updates).map (fun p => p.1)).length := by
    have h1 : ((s1.segments.filter (fun t =>
        ((buildUpdateDict updates).map (fun p => p.1)).contains t.id &&
          t.document_id == did)).map (fun u => u.id)).toFinset ⊆
        ((buildUpdateDict updates).map (fun p => p.1)).toFinset.erase uid := by
      intro a ha
      rw [List.mem_toFinset] at ha
      rcases hsub a ha with ⟨h2, h3⟩
      rw [Finset.mem_erase, List.mem_toFinset]
      exact ⟨h3, h2⟩
    have h2 := Finset.card_le_card h1
    rw [List.toFinset_card_of_nodup hFnodup,
      Finset.card_erase_of_mem (List.mem_toFinset.mpr humem),
      List.toFinset_card_of_nodup hunodup] at h2
    have h4 : 0 < ((buildUpdateDict updates).map (fun p => p.1)).length :=
      List.length_pos_of_mem humem
    simp only [List.length_map] at h2 h4 ⊢
    omega
  rw [bulkUpdatePhase]
  rw [if_neg (by simp [List.isEmpty_iff, hne])]
  rw [if_pos hmis]

/-- C8: when a bulk request's update list names a segment id that no segment
of the document has (in a well-formed state with distinct row ids), the whole
operation fails — whatever its delete and create lists hold — and the
persisted state after the request equals the input state: none of the
batch's deletes or creates survive.  The phases run in the fixed order
delete, update, create inside the one transaction embodied by
`bulk_segment_operations`. -/
theorem bulk_missing_update_id_atomic (s : DB) (document_id : Nat)
    (creates : List BulkCreateItem) (updates : List BulkUpdateItem)
    (deletes : List Nat) (uid : Nat)
    (hnodup : (s.segments.map (fun u => u.id)).Nodup)
    (hmem : uid ∈ updates.map (fun u => u.id))
    (habs : ∀ t ∈ s.segments, t.id = uid → t.document_id ≠ document_id) :
    exceptIsOk (bulk_segment_operations s document_id creates updates deletes).1 = false ∧
    (bulk_segment_operations s document_id creates updates deletes).2 = s := by
  rw [bulk_segment_operations.eq_def]
  cases hdoc : findDoc s document_id with
  | none => exact ⟨rfl, rfl⟩
  | some document =>
    cases hdel : bulkDeletePhase document_id deletes s with
    | error e =>
      simp only [hdel]
      exact ⟨rfl, by trivial⟩
    | ok s1 =>
      obtain ⟨hsub, htrans⟩ := bulkDeletePhase_rows document_id deletes s s1 hdel
      have hnodup1 : (s1.segments.map (fun u => u.id)).Nodup := hnodup.sublist hsub
      have habs1 : ∀ t ∈ s1.segments, t.id = uid → t.document_id ≠ document_id := by
        intro t ht he hd
        obtain ⟨u, hu, hid, hdoc2⟩ := htrans t ht
        exact habs u hu (by rw [← hid]; exact he) (by rw [← hdoc2]; exact hd)
      have hupd := bulkUpdatePhase_missing document_id uid updates s1 hmem hnodup1 habs1
      simp only [hdel, hupd]
      exact ⟨rfl, by trivial⟩

/-- Fixture: a bulk create entry covering the whole two-character document. -/
def exBulkCreate : BulkCreateItem := { span_start := 0, span_end := 2 }

/-- Fixture: a bulk update entry naming a segment id no row has. -/
def exBulkUpdateMissing : BulkUpdateItem := { id := 777, title := some "X" }

/-- Closed instance of the bulk atomicity theorem: a batch that deletes an
existing segment and creates a new one, but whose update entry names the
absent id 777, fails and leaves the state untouched. -/
theorem bulk_missing_update_id_atomic_witness :
    exceptIsOk (bulk_segment_operations exStateTitles 1 [exBulkCreate]
        [exBulkUpdateMissing] [5]).1 = false ∧
    (bulk_segment_operations exStateTitles 1 [exBulkCreate]
        [exBulkUpdateMissing] [5]).2 = exStateTitles :=
  bulk_missing_update_id_atomic exStateTitles 1 [exBulkCreate] [exBulkUpdateMissing]
    [5] 777 (by decide) (by decide) (by decide)
